import Mathlib

/-!
Verification development for the rdx raytracing renderer
(`crates/tracer_render`): a shallow embedding of the acceleration-structure
builder (`raytracing_builder.rs`), the buffer layer (`buffer.rs`,
`buffer_resource.rs`, `device.rs`) and the descriptor-pool sizing
(`descriptor.rs`), with theorems checking the natural-language
specification against this code.

Native Vulkan handles are modelled as natural numbers (0 is the null
handle); the device is modelled as an oracle that decides which fallible
native calls succeed and what the build-size queries return, while a
`DevState` records every native call issued, in order.  Rust panics
(`assert!`, `todo!`, out-of-bounds indexing, `unwrap`) are modelled as
`Except.error` values carrying the failure reason together with the state
at the moment of the panic.
-/

namespace Rdx

/-- Reasons a builder operation can abort; these mirror the panic sites in
the Rust source (`assert!`, `todo!()`, slice indexing, `Option::unwrap`,
and a failing native call whose result is `unwrap`ped). -/
inductive Failure where
  | assertBlasNotEmpty
  | assertTlasFailed
  | blasIdOutOfRange
  | unwrapNone
  | todoUnimplemented
  | deviceCallFailed
deriving DecidableEq, Repr

/-- `vk::AccessFlags` values used by the builder's barriers. -/
inductive AccessMask where
  | transferWrite
  | accelerationStructureWrite
  | accelerationStructureRead
deriving DecidableEq, Repr

/-- `vk::AccelerationStructureTypeKHR`. -/
inductive AccelType where
  | bottomLevel
  | topLevel
deriving DecidableEq, Repr

/-- `vk::BuildAccelerationStructureModeKHR`. -/
inductive BuildMode where
  | build
  | update
deriving DecidableEq, Repr

/-- The `vk::BufferUsageFlags` bits the builder actually uses. -/
structure BufferUsageFlags where
  accelerationStructureStorage : Bool
  shaderDeviceAddress : Bool
deriving DecidableEq, Repr

/-- The `gpu_alloc::UsageFlags` bits the builder actually uses. -/
structure MemoryUsageFlags where
  fastDeviceAccess : Bool
  deviceAddress : Bool
  hostAccess : Bool
deriving DecidableEq, Repr

/-- `ACCELERATION_STRUCTURE_STORAGE_KHR | SHADER_DEVICE_ADDRESS`. -/
def accelStorageUsage : BufferUsageFlags := ⟨true, true⟩

/-- `SHADER_DEVICE_ADDRESS` alone (the instance-description buffer). -/
def deviceAddressOnlyUsage : BufferUsageFlags := ⟨false, true⟩

/-- `FAST_DEVICE_ACCESS | DEVICE_ADDRESS`. -/
def fastDeviceMem : MemoryUsageFlags := ⟨true, true, false⟩

/-- `DEVICE_ADDRESS | HOST_ACCESS`. -/
def hostDeviceAddressMem : MemoryUsageFlags := ⟨false, true, true⟩

/-- A `vk::AccelerationStructureGeometryKHR`: the triangle geometry of a
BLAS input is opaque to the builder, while the TLAS geometry is an
INSTANCES-type geometry holding the instance buffer's device address. -/
inductive Geometry where
  | triangles (descriptor : Nat)
  | instances (dataDeviceAddress : Nat) (arrayOfPointers : Bool)
deriving DecidableEq, Repr

/-- `vk::AccelerationStructureBuildRangeInfoKHR`. -/
structure BuildRangeInfo where
  primitiveCount : Nat
  primitiveOffset : Nat
  firstVertex : Nat
  transformOffset : Nat
deriving DecidableEq, Repr

/-- `vk::AccelerationStructureBuildSizesInfoKHR`. -/
structure SizeInfo where
  accelerationStructureSize : Nat
  updateScratchSize : Nat
  buildScratchSize : Nat
deriving DecidableEq, Repr

/-- `vk::AccelerationStructureBuildGeometryInfoKHR` (the fields the
builder sets; 0 stands for a null handle / null address). -/
structure BuildGeometryInfo where
  flags : Nat
  geometries : List Geometry
  mode : BuildMode
  typ : AccelType
  srcAccelerationStructure : Nat
  dstAccelerationStructure : Nat
  scratchDeviceAddress : Nat
deriving DecidableEq, Repr

/-- One native device call, as issued by the builder.  Handle-creating
calls record the handle they returned. -/
inductive DevCall where
  | createBuffer (handle : Nat) (size : Nat) (usage : BufferUsageFlags)
  | getBufferMemoryRequirements (buffer : Nat)
  | allocMemory (buffer : Nat)
  | bindBufferMemory (buffer : Nat)
  | getBufferDeviceAddress (buffer : Nat)
  | getBuildSizes (geometries : List Geometry) (primCounts : List Nat)
  | createAccelerationStructure (handle : Nat) (typ : AccelType) (size : Nat)
      (buffer : Nat) (offset : Nat)
  | createQueryPool (handle : Nat) (count : Nat)
  | resetQueryPool (count : Nat)
  | destroyQueryPool
  | createCommandPool (handle : Nat)
  | allocateCommandBuffers (cbs : List Nat)
  | beginCommandBuffer (cb : Nat)
  | cmdBuildAccelerationStructures (cb : Nat) (info : BuildGeometryInfo)
      (ranges : List BuildRangeInfo)
  | cmdPipelineBarrier (cb : Nat) (srcAccess : AccessMask) (dstAccess : AccessMask)
  | endCommandBuffer (cb : Nat)
  | queueSubmit (cbs : List Nat)
  | queueWaitIdle
  | freeCommandBuffers (cbs : List Nat)
  | destroyCommandPool
  | mapMemory (buffer : Nat)
  | unmapMemory (buffer : Nat)
deriving DecidableEq, Repr

/-- Device-side state of a run: a fresh-handle counter (handles are the
numbers `≥ 1`; `0` is the null handle) and the trace of calls issued. -/
structure DevState where
  nextHandle : Nat
  trace : List DevCall
deriving DecidableEq, Repr

def DevState.init : DevState := ⟨0, []⟩

/-- Record an (infallible) native call. -/
def DevState.record (st : DevState) (c : DevCall) : DevState :=
  { st with trace := st.trace ++ [c] }

/-- The device oracle: `sizes` is the (pure) result of
`get_acceleration_structure_build_sizes_khr` for a given geometry list and
per-geometry primitive counts, and `ok n` decides whether the fallible
native call issued when the trace has length `n` succeeds. -/
structure Oracle where
  sizes : List Geometry → List Nat → SizeInfo
  ok : Nat → Bool

/-- An oracle on which every native call succeeds. -/
def Oracle.total (s : SizeInfo) : Oracle := ⟨fun _ _ => s, fun _ => true⟩

/-- A fallible native call returning no handle (its failing `Result` is
`unwrap`ped by the caller, i.e. the run panics). -/
def nativeCall (o : Oracle) (st : DevState) (c : DevCall) :
    Except (Failure × DevState) DevState :=
  let st' := st.record c
  if o.ok st.trace.length then .ok st' else .error (.deviceCallFailed, st')

/-- A fallible native call creating one fresh handle. -/
def nativeCreate (o : Oracle) (st : DevState) (mk : Nat → DevCall) :
    Except (Failure × DevState) (Nat × DevState) :=
  let h := st.nextHandle + 1
  let st' : DevState := ⟨h, st.trace ++ [mk h]⟩
  if o.ok st.trace.length then .ok (h, st') else .error (.deviceCallFailed, st')

/-- The model's deterministic `get_buffer_device_address`. -/
def deviceAddressOf (buffer : Nat) : Nat := 4096 * buffer

/-- `buffer_resource::BufferResource` as used by the raytracing builder:
the created native buffer handle, with the creation parameters it was
given, and the cached device address.  (The source's `allocation` memory
block and debug name are not observed by any claim.) -/
structure BufferResource where
  buffer : Nat
  size : Nat
  usageFlags : BufferUsageFlags
  memoryUsage : MemoryUsageFlags
  deviceAddress : Nat
deriving DecidableEq, Repr

/-- `BufferResource::new`: create the native buffer, query its memory
requirements, allocate and bind a memory block, and cache the buffer's
device address.  `create_buffer`, `alloc` and `bind_buffer_memory` results
are `unwrap`ped in the source, so each is a fallible call. -/
def BufferResource.new (o : Oracle) (size : Nat) (usageFlags : BufferUsageFlags)
    (memoryUsage : MemoryUsageFlags) (st : DevState) :
    Except (Failure × DevState) (BufferResource × DevState) :=
  match nativeCreate o st (fun h => .createBuffer h size usageFlags) with
  | .error e => .error e
  | .ok (buffer, st1) =>
    let st2 := st1.record (.getBufferMemoryRequirements buffer)
    match nativeCall o st2 (.allocMemory buffer) with
    | .error e => .error e
    | .ok st3 =>
      match nativeCall o st3 (.bindBufferMemory buffer) with
      | .error e => .error e
      | .ok st4 =>
        let st5 := st4.record (.getBufferDeviceAddress buffer)
        .ok (⟨buffer, size, usageFlags, memoryUsage, deviceAddressOf buffer⟩, st5)

/-- `BufferResource::store`: map the allocation (a panic if mapping
fails), copy the bytes, unmap. -/
def BufferResource.store (o : Oracle) (buf : BufferResource) (st : DevState) :
    Except (Failure × DevState) DevState :=
  match nativeCall o st (.mapMemory buf.buffer) with
  | .error e => .error e
  | .ok st1 => .ok (st1.record (.unmapMemory buf.buffer))

/-- Fallible `create_query_pool` (its result is `unwrap`ped). -/
def createQueryPool (o : Oracle) (count : Nat) (st : DevState) :
    Except (Failure × DevState) (Nat × DevState) :=
  nativeCreate o st (fun h => .createQueryPool h count)

/-- Fallible `create_command_pool` inside `CommandPool::new`. -/
def createCommandPool (o : Oracle) (st : DevState) :
    Except (Failure × DevState) (Nat × DevState) :=
  nativeCreate o st (fun h => .createCommandPool h)

/-- Fallible `allocate_command_buffers`, returning `n` fresh handles. -/
def allocateCommandBuffers (o : Oracle) (n : Nat) (st : DevState) :
    Except (Failure × DevState) (List Nat × DevState) :=
  let cbs := (List.range n).map (fun i => st.nextHandle + 1 + i)
  let st' : DevState := ⟨st.nextHandle + n, st.trace ++ [.allocateCommandBuffers cbs]⟩
  if o.ok st.trace.length then .ok (cbs, st') else .error (.deviceCallFailed, st')

/-- Fallible `begin_command_buffer`. -/
def beginCommandBuffer (o : Oracle) (cb : Nat) (st : DevState) :
    Except (Failure × DevState) DevState :=
  nativeCall o st (.beginCommandBuffer cb)

/-- Fallible `create_acceleration_structure_khr`. -/
def createAccelerationStructure (o : Oracle) (typ : AccelType) (size : Nat)
    (buffer : Nat) (offset : Nat) (st : DevState) :
    Except (Failure × DevState) (Nat × DevState) :=
  nativeCreate o st (fun h => .createAccelerationStructure h typ size buffer offset)

/-- The `end_command_buffer` loop at the start of `CommandPool::submit`. -/
def endAllCommandBuffers (o : Oracle) (st : DevState) :
    List Nat → Except (Failure × DevState) DevState
  | [] => .ok st
  | cb :: rest =>
    match nativeCall o st (.endCommandBuffer cb) with
    | .error e => .error e
    | .ok st1 => endAllCommandBuffers o st1 rest

/-- `CommandPool::submit_and_wait`: end every buffer, submit the batch,
block on `queue_wait_idle`, free the buffers. -/
def submitAndWait (o : Oracle) (cbs : List Nat) (st : DevState) :
    Except (Failure × DevState) DevState :=
  match endAllCommandBuffers o st cbs with
  | .error e => .error e
  | .ok st1 =>
    match nativeCall o st1 (.queueSubmit cbs) with
    | .error e => .error e
    | .ok st2 =>
      match nativeCall o st2 .queueWaitIdle with
      | .error e => .error e
      | .ok st3 => .ok (st3.record (.freeCommandBuffers cbs))

/-! ## The raytracing builder's data model (`raytracing_builder.rs`) -/

/-- `BlasInput`. -/
structure BlasInput where
  asGeometry : List Geometry
  asBuildOffsetInfo : List BuildRangeInfo
deriving DecidableEq, Repr

/-- `AccelerationStructure`: a native handle plus the storage buffer that
owns its memory. -/
structure AccelerationStructure where
  accel : Nat
  buffer : BufferResource
deriving DecidableEq, Repr

/-- `BlasEntry`. -/
structure BlasEntry where
  input : BlasInput
  accelerationStructure : Option AccelerationStructure
  flags : Nat
deriving DecidableEq, Repr

/-- `BlasEntry::new`. -/
def BlasEntry.new (input : BlasInput) : BlasEntry := ⟨input, none, 0⟩

/-- `Tlas`. -/
structure Tlas where
  accelerationStructure : Option AccelerationStructure
  flags : Nat
deriving DecidableEq, Repr

/-- `RaytracingBuilder` (the queue and device fields live in the oracle /
device state of the model). -/
structure RaytracingBuilder where
  blasContainer : List BlasEntry
  tlas : Tlas
deriving DecidableEq, Repr

/-- `RaytracingBuilder::new`. -/
def RaytracingBuilder.new : RaytracingBuilder := ⟨[], ⟨none, 0⟩⟩

/-- `AccelerationStructureInstance` (the transform is opaque: the source's
`to_vulkan` never reads it — the `.transform()` call is commented out). -/
structure AccelerationStructureInstance where
  blasId : Nat
  instanceCustomId : Nat
  hitGroupId : Nat
  visibilityMask : Nat
  flags : Nat
  transform : Nat
deriving DecidableEq, Repr

/-- `vk::AccelerationStructureInstanceKHR` as assembled by `to_vulkan`. -/
structure VkAccelerationStructureInstance where
  instanceCustomIndex : Nat
  mask : Nat
  instanceShaderBindingTableRecordOffset : Nat
  flags : Nat
  accelerationStructureReference : Nat
deriving DecidableEq, Repr

/-- `AccelerationStructureInstance::to_vulkan`: look the `blas_id` up in
the BLAS container (a panic if out of range), `unwrap` its built structure
(a panic if absent) and embed the storage buffer's device address. -/
def AccelerationStructureInstance.to_vulkan (inst : AccelerationStructureInstance)
    (blasContainer : List BlasEntry) : Except Failure VkAccelerationStructureInstance :=
  match blasContainer[inst.blasId]? with
  | none => .error .blasIdOutOfRange
  | some blas =>
    match blas.accelerationStructure with
    | none => .error .unwrapNone
    | some a =>
      .ok ⟨inst.instanceCustomId, inst.visibilityMask, inst.hitGroupId, inst.flags,
           a.buffer.deviceAddress⟩

/-- The `instances.iter().map(|i| i.to_vulkan(..))` pass of `build_tlas`,
stopping at the first panic. -/
def resolveInstances (blasContainer : List BlasEntry) :
    List AccelerationStructureInstance →
    Except Failure (List VkAccelerationStructureInstance)
  | [] => .ok []
  | inst :: rest =>
    match inst.to_vulkan blasContainer with
    | .error f => .error f
    | .ok v =>
      match resolveInstances blasContainer rest with
      | .error f => .error f
      | .ok vs => .ok (v :: vs)

/-- The per-entry primitive counts handed to the build-sizes query. -/
def primCounts (input : BlasInput) : List Nat :=
  input.asBuildOffsetInfo.map (·.primitiveCount)

/-- The build-sizes query result for a BLAS input. -/
def sizesFor (o : Oracle) (input : BlasInput) : SizeInfo :=
  o.sizes input.asGeometry (primCounts input)

/-- The sizing/creation loop of `build_blas` (the `for (i, entry) in
self.blas_container.iter_mut().enumerate()` loop): per entry, query the
build sizes, create the storage buffer sized to
`acceleration_structure_size` with ACCELERATION_STRUCTURE_STORAGE usage,
create the structure bound to that buffer at offset 0, record it in the
entry and in `build_infos[i].dst_acceleration_structure`, and accumulate
`max_scracth`.  On a panic the error carries the container as it stands
(populated prefix, untouched suffix). -/
def blasCreateLoop (o : Oracle) (st : DevState) (maxScratch : Nat) :
    List BlasEntry →
    Except (Failure × List BlasEntry × DevState)
      (List (BlasEntry × SizeInfo) × Nat × DevState)
  | [] => .ok ([], maxScratch, st)
  | e :: rest =>
    let si := sizesFor o e.input
    let st1 := st.record (.getBuildSizes e.input.asGeometry (primCounts e.input))
    match BufferResource.new o si.accelerationStructureSize accelStorageUsage
        fastDeviceMem st1 with
    | .error (f, st2) => .error (f, e :: rest, st2)
    | .ok (buf, st2) =>
      match createAccelerationStructure o .bottomLevel si.accelerationStructureSize
          buf.buffer 0 st2 with
      | .error (f, st3) => .error (f, e :: rest, st3)
      | .ok (h, st3) =>
        let e' : BlasEntry := { e with accelerationStructure := some ⟨h, buf⟩ }
        match blasCreateLoop o st3 (Nat.max maxScratch si.buildScratchSize) rest with
        | .error (f, rem, st4) => .error (f, e' :: rem, st4)
        | .ok (out, ms, st4) => .ok ((e', si) :: out, ms, st4)

/-- The `vk::AccelerationStructureBuildGeometryInfoKHR` recorded for one
BLAS entry: BUILD mode, BOTTOM_LEVEL type, the batch flags, the entry's
geometries, `dst_acceleration_structure` set by the creation loop and
`scratch_data` set to the shared scratch buffer's address. -/
def blasBuildInfo (flags : Nat) (e : BlasEntry) (scratchAddr : Nat) : BuildGeometryInfo :=
  { flags := flags
    geometries := e.input.asGeometry
    mode := .build
    typ := .bottomLevel
    srcAccelerationStructure := 0
    dstAccelerationStructure := (e.accelerationStructure.map (·.accel)).getD 0
    scratchDeviceAddress := scratchAddr }

/-- The command-recording loop of `build_blas`: per entry, begin its
command buffer, record the build (with the shared scratch address) and the
`ACCELERATION_STRUCTURE_WRITE → ACCELERATION_STRUCTURE_READ` barrier. -/
def blasRecordLoop (o : Oracle) (flags scratchAddr : Nat) (st : DevState) :
    List (BlasEntry × Nat) → Except (Failure × DevState) DevState
  | [] => .ok st
  | (e, cb) :: rest =>
    match beginCommandBuffer o cb st with
    | .error e' => .error e'
    | .ok st1 =>
      let st2 := st1.record (.cmdBuildAccelerationStructures cb
        (blasBuildInfo flags e scratchAddr) e.input.asBuildOffsetInfo)
      let st3 := st2.record (.cmdPipelineBarrier cb .accelerationStructureWrite
        .accelerationStructureRead)
      blasRecordLoop o flags scratchAddr st3 rest

/-- `RaytracingBuilder::build_blas`.  A panic (`assert!` or a failing
native call) is an `Except.error` carrying the builder and device state at
the panic. -/
def buildBlas (o : Oracle) (b : RaytracingBuilder) (inputs : List BlasInput)
    (flags : Nat) (st : DevState) :
    Except (Failure × RaytracingBuilder × DevState) (RaytracingBuilder × DevState) :=
  if b.blasContainer.isEmpty then
    let container := inputs.map BlasEntry.new
    match blasCreateLoop o st 0 container with
    | .error (f, cont, st1) => .error (f, { b with blasContainer := cont }, st1)
    | .ok (processed, maxScratch, st1) =>
      let entries := processed.map (·.1)
      let b1 := { b with blasContainer := entries }
      match BufferResource.new o maxScratch accelStorageUsage fastDeviceMem st1 with
      | .error (f, st2) => .error (f, b1, st2)
      | .ok (scratchBuffer, st2) =>
        match createQueryPool o entries.length st2 with
        | .error (f, st3) => .error (f, b1, st3)
        | .ok (_, st3) =>
          let st4 := st3.record (.resetQueryPool entries.length)
          match createCommandPool o st4 with
          | .error (f, st5) => .error (f, b1, st5)
          | .ok (_, st5) =>
            match allocateCommandBuffers o entries.length st5 with
            | .error (f, st6) => .error (f, b1, st6)
            | .ok (cbs, st6) =>
              match blasRecordLoop o flags scratchBuffer.deviceAddress st6
                  (entries.zip cbs) with
              | .error (f, st7) => .error (f, b1, st7)
              | .ok st7 =>
                match submitAndWait o cbs st7 with
                | .error (f, st8) => .error (f, b1, st8)
                | .ok st8 =>
                  .ok (b1, (st8.record .destroyCommandPool).record .destroyQueryPool)
  else .error (.assertBlasNotEmpty, b, st)

/-- The byte size of one `vk::AccelerationStructureInstanceKHR`. -/
def instanceKhrSize : Nat := 64

/-- The `build_tlas` precondition, the source's
`assert!(self.tlas.acceleration_structure.is_none() || update)`. -/
def tlasBuildPrecondition (tlas : Tlas) (update : Bool) : Bool :=
  tlas.accelerationStructure.isNone || update

/-- `RaytracingBuilder::build_tlas`.  `update` is the source's `update`
flag; the precondition is the source's
`assert!(self.tlas.acceleration_structure.is_none() || update)`, and the
update path panics at the source's `todo!()` (reached after the transient
command pool is created, recording begun and the instances resolved). -/
def buildTlas (o : Oracle) (b : RaytracingBuilder)
    (instances : List AccelerationStructureInstance) (flags : Nat) (update : Bool)
    (st : DevState) :
    Except (Failure × RaytracingBuilder × DevState) (RaytracingBuilder × DevState) :=
  if tlasBuildPrecondition b.tlas update then
    match createCommandPool o st with
    | .error (f, st1) => .error (f, b, st1)
    | .ok (_, st1) =>
      match allocateCommandBuffers o 1 st1 with
      | .error (f, st2) => .error (f, b, st2)
      | .ok (cbs, st2) =>
        let cb := cbs.headD 0
        match beginCommandBuffer o cb st2 with
        | .error (f, st3) => .error (f, b, st3)
        | .ok st3 =>
          let b1 := { b with tlas := { b.tlas with flags := flags } }
          match resolveInstances b.blasContainer instances with
          | .error f => .error (f, b1, st3)
          | .ok _geometryInstances =>
            let instanceDescSize := instances.length * instanceKhrSize
            if update then .error (.todoUnimplemented, b1, st3)
            else
              match BufferResource.new o instanceDescSize deviceAddressOnlyUsage
                  hostDeviceAddressMem st3 with
              | .error (f, st4) => .error (f, b1, st4)
              | .ok (instancesBuffer, st4) =>
                match instancesBuffer.store o st4 with
                | .error (f, st5) => .error (f, b1, st5)
                | .ok st5 =>
                  let st6 := st5.record (.cmdPipelineBarrier cb .transferWrite
                    .accelerationStructureWrite)
                  let tlasGeometry :=
                    Geometry.instances instancesBuffer.deviceAddress false
                  let si := o.sizes [tlasGeometry] [instances.length]
                  let st7 := st6.record (.getBuildSizes [tlasGeometry]
                    [instances.length])
                  match
                    (if update then
                      .ok (b1, st7)
                    else
                      match BufferResource.new o si.accelerationStructureSize
                          accelStorageUsage fastDeviceMem st7 with
                      | .error (f, st8) => .error (f, b1, st8)
                      | .ok (tlasBuffer, st8) =>
                        match createAccelerationStructure o .topLevel
                            si.accelerationStructureSize tlasBuffer.buffer 0 st8 with
                        | .error (f, st9) => .error (f, b1, st9)
                        | .ok (h, st9) =>
                          .ok ({ b1 with tlas := { b1.tlas with
                            accelerationStructure := some ⟨h, tlasBuffer⟩ } }, st9) :
                    Except (Failure × RaytracingBuilder × DevState)
                      (RaytracingBuilder × DevState)) with
                  | .error e => .error e
                  | .ok (b2, st9) =>
                    match BufferResource.new o si.accelerationStructureSize
                        accelStorageUsage fastDeviceMem st9 with
                    | .error (f, st10) => .error (f, b2, st10)
                    | .ok (scratchBuffer, st10) =>
                      match b2.tlas.accelerationStructure with
                      | none => .error (.unwrapNone, b2, st10)
                      | some tl =>
                        let buildInfo : BuildGeometryInfo :=
                          { flags := flags
                            geometries := [tlasGeometry]
                            mode := if update then .update else .build
                            typ := .topLevel
                            srcAccelerationStructure := if update then tl.accel else 0
                            dstAccelerationStructure := tl.accel
                            scratchDeviceAddress := scratchBuffer.deviceAddress }
                        let range : BuildRangeInfo := ⟨instances.length, 0, 0, 0⟩
                        let st11 := st10.record
                          (.cmdBuildAccelerationStructures cb buildInfo [range])
                        match submitAndWait o [cb] st11 with
                        | .error (f, st12) => .error (f, b2, st12)
                        | .ok st12 => .ok (b2, st12.record .destroyCommandPool)
  else .error (.assertTlasFailed, b, st)

/-! ## Buffer validity (`buffer.rs`) and `Device::create_buffer`
(`device.rs`) — the files are identical in `crates/tracer_render` and
`crates/rdx_renderer`. -/

/-- `2^64`, the number of `u64` values. -/
def u64Size : Nat := 2 ^ 64

/-- `u64::checked_add` on values `< 2^64`. -/
def checked_add (a b : Nat) : Option Nat :=
  if a + b < u64Size then some (a + b) else none

/-- Binary popcount with explicit recursion fuel (any `fuel ≥ n` yields
the true bit count; structural recursion keeps it kernel-reducible). -/
def countOnesAux : Nat → Nat → Nat
  | 0, _ => 0
  | fuel + 1, n => if n = 0 then 0 else n % 2 + countOnesAux fuel (n / 2)

/-- `u64::count_ones`. -/
def count_ones (n : Nat) : Nat := countOnesAux n n

/-- `u64::is_power_of_two` (`count_ones == 1` in the Rust standard
library). -/
def is_power_of_two (n : Nat) : Bool := count_ones n == 1

/-- Modelled from the spec: `util::align_up` (the `crate::util` module is
not under `src/`; only its caller `BufferInfo::is_valid` is).  Per the
spec, `size` "must round up under that mask without overflow": the value
is rounded up by adding the alignment mask with `u64` overflow checking,
then clearing the mask bits; `none` reports the overflow. -/
def align_up (align size : Nat) : Option Nat :=
  match checked_add size align with
  | none => none
  | some s => some (Nat.land s ((u64Size - 1) - align))

/-- `BufferInfo` (`align` stores `alignment - 1`, i.e. the mask). -/
structure BufferInfo where
  align : Nat
  size : Nat
  usageFlags : BufferUsageFlags
  allocationFlags : MemoryUsageFlags
deriving DecidableEq, Repr

/-- `BufferInfo::is_valid`. -/
def BufferInfo.is_valid (info : BufferInfo) : Bool :=
  let is_mask :=
    match checked_add info.align 1 with
    | none => false
    | some s => is_power_of_two s
  is_mask && (align_up info.align info.size).isSome

/-- `MappableBuffer` as produced by `Device::create_buffer` (the slab
index and memory block are not observed by any claim). -/
structure MappableBuffer where
  info : BufferInfo
  buffer : Nat
  deviceAddress : Option Nat
deriving DecidableEq, Repr

/-- `Device::create_buffer`: create the native buffer (first native call,
issued unconditionally — the source contains no `is_valid` check), query
memory requirements, allocate and bind a memory block, and query the
device address when `DEVICE_ADDRESS` was requested. -/
def Device.create_buffer (o : Oracle) (info : BufferInfo)
    (allocationFlags : MemoryUsageFlags) (st : DevState) :
    Except (Failure × DevState) (MappableBuffer × DevState) :=
  match nativeCreate o st (fun h => .createBuffer h info.size info.usageFlags) with
  | .error e => .error e
  | .ok (buffer, st1) =>
    let st2 := st1.record (.getBufferMemoryRequirements buffer)
    match nativeCall o st2 (.allocMemory buffer) with
    | .error e => .error e
    | .ok st3 =>
      match nativeCall o st3 (.bindBufferMemory buffer) with
      | .error e => .error e
      | .ok st4 =>
        if allocationFlags.deviceAddress then
          let st5 := st4.record (.getBufferDeviceAddress buffer)
          .ok (⟨info, buffer, some (deviceAddressOf buffer)⟩, st5)
        else
          .ok (⟨info, buffer, none⟩, st4)

/-- The device state a run ends in, whether it succeeded or panicked. -/
def stateOf {α : Type} (r : Except (Failure × DevState) (α × DevState)) : DevState :=
  match r with
  | .ok (_, s) => s
  | .error (_, s) => s

/-- `true` iff the run succeeded. -/
def isOkRun {ε α : Type} (r : Except ε α) : Bool :=
  match r with
  | .ok _ => true
  | .error _ => false

/-! ## Descriptor pool sizes (`descriptor.rs`) -/

/-- `DescriptorType` (12 canonical kinds, in declaration order). -/
inductive DescriptorType where
  | sampler
  | combinedImageSampler
  | sampledImage
  | storageImage
  | uniformTexelBuffer
  | storageTexelBuffer
  | uniformBuffer
  | storageBuffer
  | uniformBufferDynamic
  | storageBufferDynamic
  | inputAttachment
  | accelerationStructure
deriving DecidableEq, Repr, Fintype

/-- The `as usize` cast of `DescriptorType` (discriminant order). -/
def DescriptorType.index : DescriptorType → Fin 12
  | .sampler => 0
  | .combinedImageSampler => 1
  | .sampledImage => 2
  | .storageImage => 3
  | .uniformTexelBuffer => 4
  | .storageTexelBuffer => 5
  | .uniformBuffer => 6
  | .storageBuffer => 7
  | .uniformBufferDynamic => 8
  | .storageBufferDynamic => 9
  | .inputAttachment => 10
  | .accelerationStructure => 11

/-- `vk::DescriptorType` values used by `descriptor_type_from_index`. -/
inductive VkDescriptorType where
  | sampler
  | combinedImageSampler
  | sampledImage
  | storageImage
  | uniformTexelBuffer
  | storageTexelBuffer
  | uniformBuffer
  | storageBuffer
  | uniformBufferDynamic
  | storageBufferDynamic
  | inputAttachment
  | accelerationStructureKhr
deriving DecidableEq, Repr

/-- `descriptor_type_from_index` (callers only pass indices `< 12`; the
source's `unreachable!()` arm is irrelevant on `Fin 12`). -/
def descriptor_type_from_index : Fin 12 → VkDescriptorType
  | 0 => .sampler
  | 1 => .combinedImageSampler
  | 2 => .sampledImage
  | 3 => .storageImage
  | 4 => .uniformTexelBuffer
  | 5 => .storageTexelBuffer
  | 6 => .uniformBuffer
  | 7 => .storageBuffer
  | 8 => .uniformBufferDynamic
  | 9 => .storageBufferDynamic
  | 10 => .inputAttachment
  | 11 => .accelerationStructureKhr

/-- `DescriptorSetLayoutBinding` (stages and binding flags are opaque). -/
structure DescriptorSetLayoutBinding where
  binding : Nat
  descriptorType : DescriptorType
  count : Nat
  stages : Nat
  flags : Nat

/-- `2^32`, the number of `u32` values. -/
def u32Size : Nat := 2 ^ 32

/-- `DescriptorSizesBuilder`: the `[u32; 12]` per-type count table. -/
structure DescriptorSizesBuilder where
  sizes : Fin 12 → Nat

/-- `DescriptorSizesBuilder::zero`. -/
def DescriptorSizesBuilder.zero : DescriptorSizesBuilder := ⟨fun _ => 0⟩

/-- `DescriptorSizesBuilder::add_binding`
(`self.sizes[binding.descriptor_type as usize] += binding.count`, with
`u32` arithmetic). -/
def DescriptorSizesBuilder.add_binding (b : DescriptorSizesBuilder)
    (bd : DescriptorSetLayoutBinding) : DescriptorSizesBuilder :=
  ⟨fun i => if i = bd.descriptorType.index then (b.sizes i + bd.count) % u32Size
            else b.sizes i⟩

/-- `DescriptorSizesBuilder::from_bindings`. -/
def DescriptorSizesBuilder.from_bindings
    (bindings : List DescriptorSetLayoutBinding) : DescriptorSizesBuilder :=
  bindings.foldl DescriptorSizesBuilder.add_binding DescriptorSizesBuilder.zero

/-- `vk::DescriptorPoolSize`. -/
structure PoolSize where
  typ : VkDescriptorType
  descriptorCount : Nat
deriving DecidableEq, Repr

/-- `DescriptorSizes`: `sizes` holds the populated slots of the source's
fixed array (slots past `count` keep the `SAMPLER`/0 filler and are never
read), `count` how many were populated. -/
structure DescriptorSizes where
  sizes : List PoolSize
  count : Nat
deriving DecidableEq, Repr

/-- `DescriptorSizesBuilder::build`: walk the 12 per-type counts in index
order, appending a pool-size entry for each non-zero count. -/
def DescriptorSizesBuilder.build (b : DescriptorSizesBuilder) : DescriptorSizes :=
  let filled := (List.finRange 12).foldl
    (fun acc i =>
      if b.sizes i > 0 then acc ++ [⟨descriptor_type_from_index i, b.sizes i⟩]
      else acc) []
  ⟨filled, filled.length⟩

/-- The mathematical per-type total of `count` over a binding list. -/
def typeCount (bindings : List DescriptorSetLayoutBinding)
    (t : DescriptorType) : Nat :=
  (bindings.map (fun bd => if bd.descriptorType = t then bd.count else 0)).sum

/-- The builder a `buildBlas`/`buildTlas` run leaves behind, whether it
succeeded or panicked. -/
def builderOf (r : Except (Failure × RaytracingBuilder × DevState)
    (RaytracingBuilder × DevState)) : RaytracingBuilder :=
  match r with
  | .ok (b, _) => b
  | .error (_, b, _) => b

/-- The device state a `buildBlas`/`buildTlas` run ends in. -/
def devStateOf (r : Except (Failure × RaytracingBuilder × DevState)
    (RaytracingBuilder × DevState)) : DevState :=
  match r with
  | .ok (_, s) => s
  | .error (_, _, s) => s

/-- Inverse of `DescriptorType.index`. -/
def typeOfIndex : Fin 12 → DescriptorType
  | 0 => .sampler
  | 1 => .combinedImageSampler
  | 2 => .sampledImage
  | 3 => .storageImage
  | 4 => .uniformTexelBuffer
  | 5 => .storageTexelBuffer
  | 6 => .uniformBuffer
  | 7 => .storageBuffer
  | 8 => .uniformBufferDynamic
  | 9 => .storageBufferDynamic
  | 10 => .inputAttachment
  | 11 => .accelerationStructure

/-! ## Basic lemmas about the native-call model -/

theorem nativeCall_ok {o : Oracle} {st st' : DevState} {c : DevCall}
    (h : nativeCall o st c = .ok st') : st' = st.record c := by
  unfold nativeCall at h
  split at h
  · exact (Except.ok.injEq _ _).mp h.symm ▸ rfl
  · exact absurd h (by simp)

theorem nativeCall_error {o : Oracle} {st st' : DevState} {c : DevCall} {f : Failure}
    (h : nativeCall o st c = .error (f, st')) :
    f = .deviceCallFailed ∧ st' = st.record c := by
  unfold nativeCall at h
  split at h
  · exact absurd h (by simp)
  · simp only [Except.error.injEq, Prod.mk.injEq] at h
    exact ⟨h.1.symm, h.2.symm⟩

theorem nativeCreate_ok {o : Oracle} {st st' : DevState} {mk : Nat → DevCall} {h : Nat}
    (hh : nativeCreate o st mk = .ok (h, st')) :
    h = st.nextHandle + 1 ∧ st' = ⟨st.nextHandle + 1, st.trace ++ [mk (st.nextHandle + 1)]⟩ := by
  unfold nativeCreate at hh
  split at hh
  · simp only [Except.ok.injEq, Prod.mk.injEq] at hh
    exact ⟨hh.1.symm, hh.2.symm⟩
  · exact absurd hh (by simp)

theorem nativeCreate_error {o : Oracle} {st st' : DevState} {mk : Nat → DevCall} {f : Failure}
    (hh : nativeCreate o st mk = .error (f, st')) :
    f = .deviceCallFailed ∧
      st' = ⟨st.nextHandle + 1, st.trace ++ [mk (st.nextHandle + 1)]⟩ := by
  unfold nativeCreate at hh
  split at hh
  · exact absurd hh (by simp)
  · simp only [Except.error.injEq, Prod.mk.injEq] at hh
    exact ⟨hh.1.symm, hh.2.symm⟩

theorem BufferResource.new_ok {o : Oracle} {size : Nat} {u : BufferUsageFlags}
    {m : MemoryUsageFlags} {st st' : DevState} {buf : BufferResource}
    (h : BufferResource.new o size u m st = .ok (buf, st')) :
    buf = ⟨st.nextHandle + 1, size, u, m, deviceAddressOf (st.nextHandle + 1)⟩ ∧
      st' = ⟨st.nextHandle + 1, st.trace ++
        [.createBuffer (st.nextHandle + 1) size u,
         .getBufferMemoryRequirements (st.nextHandle + 1),
         .allocMemory (st.nextHandle + 1),
         .bindBufferMemory (st.nextHandle + 1),
         .getBufferDeviceAddress (st.nextHandle + 1)]⟩ := by
  unfold BufferResource.new nativeCreate nativeCall DevState.record at h
  dsimp only at h
  by_cases h1 : o.ok st.trace.length = true
  · simp only [h1, if_true] at h
    by_cases h2 : o.ok (st.trace.length + 2) = true
    · simp only [List.length_append, List.length_cons, List.length_nil, h2, if_true] at h
      by_cases h3 : o.ok (st.trace.length + 3) = true
      · simp only [List.length_append, List.length_cons, List.length_nil, h3, if_true] at h
        simp only [Except.ok.injEq, Prod.mk.injEq] at h
        exact ⟨h.1.symm, by rw [← h.2]; simp⟩
      · simp only [List.length_append, List.length_cons, List.length_nil, h3, if_false] at h
        simp at h
    · simp only [List.length_append, List.length_cons, List.length_nil, h2, if_false] at h
      simp at h
  · simp only [h1, if_false] at h
    simp at h

theorem BufferResource.new_error {o : Oracle} {size : Nat} {u : BufferUsageFlags}
    {m : MemoryUsageFlags} {st st' : DevState} {f : Failure}
    (h : BufferResource.new o size u m st = .error (f, st')) :
    f = .deviceCallFailed ∧ ∃ t, st'.trace = st.trace ++ t := by
  unfold BufferResource.new nativeCreate nativeCall DevState.record at h
  dsimp only at h
  by_cases h1 : o.ok st.trace.length = true
  · simp only [h1, if_true] at h
    by_cases h2 : o.ok (st.trace.length + 2) = true
    · simp only [List.length_append, List.length_cons, List.length_nil, h2, if_true] at h
      by_cases h3 : o.ok (st.trace.length + 3) = true
      · simp only [List.length_append, List.length_cons, List.length_nil, h3, if_true] at h
        simp at h
      · simp [h3] at h
        exact ⟨h.1.symm, _, by rw [← h.2]⟩
    · simp [h2] at h
      exact ⟨h.1.symm, _, by rw [← h.2]⟩
  · simp [h1] at h
    exact ⟨h.1.symm, _, by rw [← h.2]⟩

theorem createAccelerationStructure_ok {o : Oracle} {typ : AccelType}
    {size buffer offset : Nat} {st st' : DevState} {h : Nat}
    (hh : createAccelerationStructure o typ size buffer offset st = .ok (h, st')) :
    h = st.nextHandle + 1 ∧
      st' = ⟨st.nextHandle + 1, st.trace ++
        [.createAccelerationStructure (st.nextHandle + 1) typ size buffer offset]⟩ :=
  nativeCreate_ok hh

theorem createAccelerationStructure_error {o : Oracle} {typ : AccelType}
    {size buffer offset : Nat} {st st' : DevState} {f : Failure}
    (hh : createAccelerationStructure o typ size buffer offset st = .error (f, st')) :
    f = .deviceCallFailed ∧ ∃ t, st'.trace = st.trace ++ t := by
  obtain ⟨hf, hst⟩ := nativeCreate_error hh
  exact ⟨hf, _, by rw [hst]⟩

theorem createQueryPool_ok {o : Oracle} {count : Nat} {st st' : DevState} {h : Nat}
    (hh : createQueryPool o count st = .ok (h, st')) :
    h = st.nextHandle + 1 ∧
      st' = ⟨st.nextHandle + 1, st.trace ++ [.createQueryPool (st.nextHandle + 1) count]⟩ :=
  nativeCreate_ok hh

theorem createCommandPool_ok {o : Oracle} {st st' : DevState} {h : Nat}
    (hh : createCommandPool o st = .ok (h, st')) :
    h = st.nextHandle + 1 ∧
      st' = ⟨st.nextHandle + 1, st.trace ++ [.createCommandPool (st.nextHandle + 1)]⟩ :=
  nativeCreate_ok hh

theorem allocateCommandBuffers_ok {o : Oracle} {n : Nat} {st st' : DevState}
    {cbs : List Nat} (h : allocateCommandBuffers o n st = .ok (cbs, st')) :
    cbs = (List.range n).map (fun i => st.nextHandle + 1 + i) ∧
      st' = ⟨st.nextHandle + n, st.trace ++ [.allocateCommandBuffers cbs]⟩ := by
  unfold allocateCommandBuffers at h
  split at h
  · simp only [Except.ok.injEq, Prod.mk.injEq] at h
    obtain ⟨hc, hs⟩ := h
    subst hc
    exact ⟨rfl, hs.symm⟩
  · exact absurd h (by simp)

theorem beginCommandBuffer_ok {o : Oracle} {cb : Nat} {st st' : DevState}
    (h : beginCommandBuffer o cb st = .ok st') : st' = st.record (.beginCommandBuffer cb) :=
  nativeCall_ok h

theorem endAllCommandBuffers_ok {o : Oracle} {st st' : DevState} {cbs : List Nat}
    (h : endAllCommandBuffers o st cbs = .ok st') :
    st' = ⟨st.nextHandle, st.trace ++ cbs.map (.endCommandBuffer ·)⟩ := by
  induction cbs generalizing st with
  | nil =>
    unfold endAllCommandBuffers at h
    simp only [Except.ok.injEq] at h
    subst h
    simp
  | cons cb rest ih =>
    unfold endAllCommandBuffers at h
    cases he : nativeCall o st (.endCommandBuffer cb) with
    | error e => rw [he] at h; exact absurd h (by simp)
    | ok st1 =>
      rw [he] at h
      have h1 := nativeCall_ok he
      subst h1
      have := ih h
      rw [this]
      simp [DevState.record]

theorem submitAndWait_ok {o : Oracle} {st st' : DevState} {cbs : List Nat}
    (h : submitAndWait o cbs st = .ok st') :
    st' = ⟨st.nextHandle, st.trace ++ cbs.map (.endCommandBuffer ·) ++
      [.queueSubmit cbs, .queueWaitIdle, .freeCommandBuffers cbs]⟩ := by
  unfold submitAndWait at h
  cases he : endAllCommandBuffers o st cbs with
  | error e => rw [he] at h; exact absurd h (by simp)
  | ok st1 =>
    rw [he] at h
    have h1 := endAllCommandBuffers_ok he
    subst h1
    dsimp only at h
    cases hs : nativeCall o _ (.queueSubmit cbs) with
    | error e => rw [hs] at h; exact absurd h (by simp)
    | ok st2 =>
      rw [hs] at h
      have h2 := nativeCall_ok hs
      subst h2
      dsimp only at h
      cases hw : nativeCall o _ .queueWaitIdle with
      | error e => rw [hw] at h; exact absurd h (by simp)
      | ok st3 =>
        rw [hw] at h
        have h3 := nativeCall_ok hw
        subst h3
        dsimp only at h
        simp only [Except.ok.injEq] at h
        subst h
        simp [DevState.record]

theorem store_ok {o : Oracle} {buf : BufferResource} {st st' : DevState}
    (h : BufferResource.store o buf st = .ok st') :
    st' = ⟨st.nextHandle, st.trace ++ [.mapMemory buf.buffer, .unmapMemory buf.buffer]⟩ := by
  unfold BufferResource.store at h
  cases hm : nativeCall o st (.mapMemory buf.buffer) with
  | error e => rw [hm] at h; exact absurd h (by simp)
  | ok st1 =>
    rw [hm] at h
    have h1 := nativeCall_ok hm
    subst h1
    dsimp only at h
    simp only [Except.ok.injEq] at h
    subst h
    simp [DevState.record]

/-- Is this call a native buffer creation? -/
def isCreateBufferCall : DevCall → Bool
  | .createBuffer .. => true
  | _ => false

/-- Is this call a recorded acceleration-structure build command? -/
def isCmdBuildCall : DevCall → Bool
  | .cmdBuildAccelerationStructures .. => true
  | _ => false

/-- What one successful iteration of the creation loop does to one entry. -/
def entryBuilt (o : Oracle) (t : List DevCall) (e : BlasEntry)
    (p : BlasEntry × SizeInfo) : Prop :=
  p.2 = sizesFor o e.input ∧ p.1.input = e.input ∧ p.1.flags = e.flags ∧
  ∃ a : AccelerationStructure, p.1.accelerationStructure = some a ∧
    a.accel ≠ 0 ∧
    a.buffer.size = p.2.accelerationStructureSize ∧
    a.buffer.usageFlags = accelStorageUsage ∧
    DevCall.createAccelerationStructure a.accel .bottomLevel
      p.2.accelerationStructureSize a.buffer.buffer 0 ∈ t

theorem entryBuilt_mono {o : Oracle} {t u : List DevCall} {e : BlasEntry}
    {p : BlasEntry × SizeInfo} (h : entryBuilt o t e p) :
    entryBuilt o (t ++ u) e p := by
  obtain ⟨h1, h2, h3, a, h4, h5, h6, h7, h8⟩ := h
  exact ⟨h1, h2, h3, a, h4, h5, h6, h7, List.mem_append_left _ h8⟩

theorem blasCreateLoop_ok {o : Oracle} {st st' : DevState} {ms ms' : Nat}
    {es : List BlasEntry} {out : List (BlasEntry × SizeInfo)}
    (h : blasCreateLoop o st ms es = .ok (out, ms', st')) :
    (∃ u, st'.trace = st.trace ++ u ∧
        u.countP (isCreateBufferCall ·) = es.length ∧
        ∀ c ∈ u, isCmdBuildCall c = false) ∧
    ms' = es.foldl (fun acc e => Nat.max acc (sizesFor o e.input).buildScratchSize) ms ∧
    List.Forall₂ (entryBuilt o st'.trace) es out := by
  induction es generalizing st ms out with
  | nil =>
    unfold blasCreateLoop at h
    simp only [Except.ok.injEq, Prod.mk.injEq] at h
    obtain ⟨ho, hm, hs⟩ := h
    subst ho hm hs
    exact ⟨⟨[], by simp, by simp, by simp⟩, rfl, List.Forall₂.nil⟩
  | cons e rest ih =>
    unfold blasCreateLoop at h
    dsimp only at h
    cases hb : BufferResource.new o (sizesFor o e.input).accelerationStructureSize
        accelStorageUsage fastDeviceMem
        ((st.record (.getBuildSizes e.input.asGeometry (primCounts e.input)))) with
    | error eb => rw [hb] at h; exact absurd h (by simp)
    | ok vb =>
      obtain ⟨buf, st2⟩ := vb
      rw [hb] at h
      dsimp only at h
      obtain ⟨hbuf, hst2⟩ := BufferResource.new_ok hb
      have ht2 : st2.trace = st.trace ++
          [.getBuildSizes e.input.asGeometry (primCounts e.input),
           .createBuffer (st.nextHandle + 1)
             (sizesFor o e.input).accelerationStructureSize accelStorageUsage,
           .getBufferMemoryRequirements (st.nextHandle + 1),
           .allocMemory (st.nextHandle + 1),
           .bindBufferMemory (st.nextHandle + 1),
           .getBufferDeviceAddress (st.nextHandle + 1)] := by
        rw [hst2]; simp [DevState.record]
      have hn2 : st2.nextHandle = st.nextHandle + 1 := by
        rw [hst2]; simp [DevState.record]
      have hbb : buf.buffer = st.nextHandle + 1 := by
        rw [hbuf]; simp [DevState.record]
      have hbsz : buf.size = (sizesFor o e.input).accelerationStructureSize := by
        rw [hbuf]
      have hbu : buf.usageFlags = accelStorageUsage := by rw [hbuf]
      cases hc : createAccelerationStructure o .bottomLevel
          (sizesFor o e.input).accelerationStructureSize buf.buffer 0 st2 with
      | error ec => rw [hc] at h; exact absurd h (by simp)
      | ok vc =>
        obtain ⟨hdl, st3⟩ := vc
        rw [hc] at h
        dsimp only at h
        obtain ⟨hhdl, hst3⟩ := createAccelerationStructure_ok hc
        have ht3 : st3.trace = st2.trace ++
            [.createAccelerationStructure hdl .bottomLevel
              (sizesFor o e.input).accelerationStructureSize buf.buffer 0] := by
          rw [hst3, hhdl]
        have hdlval : hdl = st.nextHandle + 2 := by rw [hhdl, hn2]
        cases hr : blasCreateLoop o st3
            (Nat.max ms (sizesFor o e.input).buildScratchSize) rest with
        | error er =>
          obtain ⟨f, rem, st4⟩ := er
          rw [hr] at h
          exact absurd h (by simp)
        | ok vr =>
          obtain ⟨outr, msr, str⟩ := vr
          rw [hr] at h
          simp only [Except.ok.injEq, Prod.mk.injEq] at h
          obtain ⟨hout, hmsr, hstr⟩ := h
          subst hout hmsr hstr
          obtain ⟨⟨u, hu, hcnt, hnb⟩, hms, hfa⟩ := ih hr
          constructor
          · refine ⟨[DevCall.getBuildSizes e.input.asGeometry (primCounts e.input),
               .createBuffer (st.nextHandle + 1)
                 (sizesFor o e.input).accelerationStructureSize accelStorageUsage,
               .getBufferMemoryRequirements (st.nextHandle + 1),
               .allocMemory (st.nextHandle + 1),
               .bindBufferMemory (st.nextHandle + 1),
               .getBufferDeviceAddress (st.nextHandle + 1),
               .createAccelerationStructure hdl .bottomLevel
                 (sizesFor o e.input).accelerationStructureSize buf.buffer 0] ++ u,
              ?_, ?_, ?_⟩
            · rw [hu, ht3, ht2]
              simp
            · simp only [List.countP_append, List.countP_cons, List.countP_nil]
              rw [hcnt]
              simp [isCreateBufferCall]
              omega
            · intro c hcm
              simp only [List.mem_append, List.mem_cons, List.not_mem_nil,
                or_false] at hcm
              rcases hcm with (hcm | hcm | hcm | hcm | hcm | hcm | hcm) | hcm
              · subst hcm; rfl
              · subst hcm; rfl
              · subst hcm; rfl
              · subst hcm; rfl
              · subst hcm; rfl
              · subst hcm; rfl
              · subst hcm; rfl
              · exact hnb c hcm
          constructor
          · rw [hms]
            simp
          · refine List.Forall₂.cons ?_ hfa
            refine ⟨rfl, rfl, rfl, ⟨hdl, buf⟩, rfl, ?_, hbsz, hbu, ?_⟩
            · rw [hdlval]; exact Nat.succ_ne_zero _
            · rw [hu, ht3]
              exact List.mem_append_left _ (List.mem_append_right _ (by simp))

theorem blasCreateLoop_error_length {o : Oracle} {st st' : DevState} {ms : Nat}
    {es cont : List BlasEntry} {f : Failure}
    (h : blasCreateLoop o st ms es = .error (f, cont, st')) :
    cont.length = es.length := by
  induction es generalizing st ms cont f st' with
  | nil =>
    unfold blasCreateLoop at h
    exact absurd h (by simp)
  | cons e rest ih =>
    unfold blasCreateLoop at h
    dsimp only at h
    cases hb : BufferResource.new o (sizesFor o e.input).accelerationStructureSize
        accelStorageUsage fastDeviceMem
        ((st.record (.getBuildSizes e.input.asGeometry (primCounts e.input)))) with
    | error eb =>
      obtain ⟨fb, stb⟩ := eb
      rw [hb] at h
      dsimp only at h
      simp only [Except.error.injEq, Prod.mk.injEq] at h
      rw [← h.2.1]
    | ok vb =>
      obtain ⟨buf, st2⟩ := vb
      rw [hb] at h
      dsimp only at h
      cases hc : createAccelerationStructure o .bottomLevel
          (sizesFor o e.input).accelerationStructureSize buf.buffer 0 st2 with
      | error ec =>
        obtain ⟨fc, stc⟩ := ec
        rw [hc] at h
        dsimp only at h
        simp only [Except.error.injEq, Prod.mk.injEq] at h
        rw [← h.2.1]
      | ok vc =>
        obtain ⟨hdl, st3⟩ := vc
        rw [hc] at h
        dsimp only at h
        cases hr : blasCreateLoop o st3
            (Nat.max ms (sizesFor o e.input).buildScratchSize) rest with
        | error er =>
          obtain ⟨fr, rem, st4⟩ := er
          rw [hr] at h
          dsimp only at h
          simp only [Except.error.injEq, Prod.mk.injEq] at h
          rw [← h.2.1]
          simp [ih hr]
        | ok vr =>
          obtain ⟨outr, msr, str⟩ := vr
          rw [hr] at h
          exact absurd h (by simp)

/-- The calls recorded for one entry by the command-recording loop. -/
def recordTriple (flags scratchAddr : Nat) (p : BlasEntry × Nat) : List DevCall :=
  [.beginCommandBuffer p.2,
   .cmdBuildAccelerationStructures p.2 (blasBuildInfo flags p.1 scratchAddr)
     p.1.input.asBuildOffsetInfo,
   .cmdPipelineBarrier p.2 .accelerationStructureWrite .accelerationStructureRead]

theorem blasRecordLoop_ok {o : Oracle} {flags scratchAddr : Nat} {st st' : DevState}
    {pairs : List (BlasEntry × Nat)}
    (h : blasRecordLoop o flags scratchAddr st pairs = .ok st') :
    st' = ⟨st.nextHandle,
      st.trace ++ pairs.flatMap (recordTriple flags scratchAddr)⟩ := by
  induction pairs generalizing st with
  | nil =>
    unfold blasRecordLoop at h
    simp only [Except.ok.injEq] at h
    subst h
    simp
  | cons p rest ih =>
    obtain ⟨e, cb⟩ := p
    unfold blasRecordLoop at h
    dsimp only at h
    cases hbg : beginCommandBuffer o cb st with
    | error eb => rw [hbg] at h; exact absurd h (by simp)
    | ok st1 =>
      rw [hbg] at h
      dsimp only at h
      have h1 := beginCommandBuffer_ok hbg
      subst h1
      rw [ih h]
      simp [DevState.record, recordTriple]

theorem mem_zip_left {α β : Type} {l1 : List α} {l2 : List β}
    (hl : l1.length = l2.length) {a : α} (h : a ∈ l1) :
    ∃ b, (a, b) ∈ l1.zip l2 := by
  induction l1 generalizing l2 with
  | nil => cases h
  | cons x xs ih =>
    cases l2 with
    | nil => simp at hl
    | cons y ys =>
      rcases List.mem_cons.mp h with rfl | h
      · exact ⟨y, by simp⟩
      · obtain ⟨b, hb⟩ := ih (by simpa using hl) h
        exact ⟨b, by simp [hb]⟩

/-- `max_scracth` over a batch of inputs, as accumulated by `build_blas`. -/
def maxScratchOf (o : Oracle) (inputs : List BlasInput) : Nat :=
  inputs.foldl (fun acc i => Nat.max acc (sizesFor o i).buildScratchSize) 0

/-- Everything a successful `build_blas` run guarantees: the precondition
held, the TLAS is untouched, the trace grew by this call's device work,
which allocates one buffer per entry plus a single shared scratch buffer
of size `max_scracth`, every recorded build command addresses that scratch
buffer, every input gained exactly one fully-populated BLAS entry, and
every final entry had its build command recorded. -/
theorem buildBlas_ok_master {o : Oracle} {b b' : RaytracingBuilder}
    {inputs : List BlasInput} {flags : Nat} {st st' : DevState}
    (h : buildBlas o b inputs flags st = .ok (b', st')) :
    b.blasContainer = [] ∧ b'.tlas = b.tlas ∧
    ∃ scratchHandle Δ,
      st'.trace = st.trace ++ Δ ∧
      Δ.countP (isCreateBufferCall ·) = inputs.length + 1 ∧
      DevCall.createBuffer scratchHandle (maxScratchOf o inputs) accelStorageUsage ∈ Δ ∧
      (∀ cb info r, DevCall.cmdBuildAccelerationStructures cb info r ∈ Δ →
        info.scratchDeviceAddress = deviceAddressOf scratchHandle) ∧
      (∀ e ∈ b'.blasContainer, ∃ cb,
        DevCall.cmdBuildAccelerationStructures cb
          (blasBuildInfo flags e (deviceAddressOf scratchHandle))
          e.input.asBuildOffsetInfo ∈ st'.trace) ∧
      List.Forall₂
        (fun (input : BlasInput) (e : BlasEntry) =>
          e.input = input ∧ ∃ a : AccelerationStructure,
            e.accelerationStructure = some a ∧ a.accel ≠ 0 ∧
            a.buffer.size = (sizesFor o input).accelerationStructureSize ∧
            a.buffer.usageFlags = accelStorageUsage ∧
            DevCall.createAccelerationStructure a.accel .bottomLevel
              (sizesFor o input).accelerationStructureSize a.buffer.buffer 0 ∈ st'.trace)
        inputs b'.blasContainer := by
  unfold buildBlas at h
  by_cases hemp : b.blasContainer.isEmpty
  case neg => simp [hemp] at h
  simp only [hemp, if_true] at h
  have hempty : b.blasContainer = [] := List.isEmpty_iff.mp hemp
  refine ⟨hempty, ?_⟩
  cases hcl : blasCreateLoop o st 0 (inputs.map BlasEntry.new) with
  | error ec =>
    obtain ⟨f1, cont1, stc1⟩ := ec
    rw [hcl] at h
    exact absurd h (by simp)
  | ok vc =>
    obtain ⟨processed, maxScratch, st1⟩ := vc
    rw [hcl] at h
    dsimp only at h
    obtain ⟨⟨ucl, hucl, hcnt, hnb⟩, hms, hfa⟩ := blasCreateLoop_ok hcl
    cases hsc : BufferResource.new o maxScratch accelStorageUsage fastDeviceMem st1 with
    | error es' => rw [hsc] at h; exact absurd h (by simp)
    | ok vs =>
      obtain ⟨scratchBuffer, st2⟩ := vs
      rw [hsc] at h
      dsimp only at h
      obtain ⟨hsbuf, hst2⟩ := BufferResource.new_ok hsc
      have ht2 : st2.trace = st1.trace ++
          [.createBuffer (st1.nextHandle + 1) maxScratch accelStorageUsage,
           .getBufferMemoryRequirements (st1.nextHandle + 1),
           .allocMemory (st1.nextHandle + 1),
           .bindBufferMemory (st1.nextHandle + 1),
           .getBufferDeviceAddress (st1.nextHandle + 1)] := by
        rw [hst2]
      have hsaddr : scratchBuffer.deviceAddress = deviceAddressOf (st1.nextHandle + 1) := by
        rw [hsbuf]
      cases hqp : createQueryPool o (processed.map (·.1)).length st2 with
      | error eq' => rw [hqp] at h; exact absurd h (by simp)
      | ok vq =>
        obtain ⟨qp, st3⟩ := vq
        rw [hqp] at h
        dsimp only at h
        obtain ⟨hqph, hst3⟩ := createQueryPool_ok hqp
        cases hcp : createCommandPool o
            (st3.record (.resetQueryPool (processed.map (·.1)).length)) with
        | error ep => rw [hcp] at h; exact absurd h (by simp)
        | ok vp =>
          obtain ⟨cp, st5⟩ := vp
          rw [hcp] at h
          dsimp only at h
          obtain ⟨hcph, hst5⟩ := createCommandPool_ok hcp
          cases hac : allocateCommandBuffers o (processed.map (·.1)).length st5 with
          | error ea => rw [hac] at h; exact absurd h (by simp)
          | ok va =>
            obtain ⟨cbs, st6⟩ := va
            rw [hac] at h
            dsimp only at h
            obtain ⟨hcbs, hst6⟩ := allocateCommandBuffers_ok hac
            cases hrl : blasRecordLoop o flags scratchBuffer.deviceAddress st6
                ((processed.map (·.1)).zip cbs) with
            | error er => rw [hrl] at h; exact absurd h (by simp)
            | ok st7 =>
              rw [hrl] at h
              dsimp only at h
              have hst7 := blasRecordLoop_ok hrl
              cases hsw : submitAndWait o cbs st7 with
              | error ew => rw [hsw] at h; exact absurd h (by simp)
              | ok st8 =>
                rw [hsw] at h
                dsimp only at h
                have hst8 := submitAndWait_ok hsw
                simp only [Except.ok.injEq, Prod.mk.injEq] at h
                obtain ⟨hb', hst'⟩ := h
                subst hb' hst'
                have hn2 : st2.nextHandle = st1.nextHandle + 1 := by rw [hst2]
                subst hqph hcph
                have hcnt' : List.countP (isCreateBufferCall ·) ucl = inputs.length := by
                  rw [hcnt]; simp
                have hmsx : maxScratch = maxScratchOf o inputs := by
                  rw [hms, maxScratchOf, List.foldl_map]
                  rfl
                refine ⟨rfl, st1.nextHandle + 1,
                  ucl ++ ([.createBuffer (st1.nextHandle + 1) maxScratch accelStorageUsage,
                       .getBufferMemoryRequirements (st1.nextHandle + 1),
                       .allocMemory (st1.nextHandle + 1),
                       .bindBufferMemory (st1.nextHandle + 1),
                       .getBufferDeviceAddress (st1.nextHandle + 1)] ++
                    ([.createQueryPool (st2.nextHandle + 1) (processed.map (·.1)).length,
                      .resetQueryPool (processed.map (·.1)).length,
                      .createCommandPool
                        ((st3.record (.resetQueryPool (processed.map (·.1)).length)).nextHandle + 1),
                      .allocateCommandBuffers cbs] ++
                     (((processed.map (·.1)).zip cbs).flatMap
                         (recordTriple flags scratchBuffer.deviceAddress) ++
                      (cbs.map (.endCommandBuffer ·) ++
                       ([.queueSubmit cbs, .queueWaitIdle, .freeCommandBuffers cbs] ++
                        [.destroyCommandPool, .destroyQueryPool]))))), ?_, ?_, ?_, ?_, ?_, ?_⟩
                · simp only [DevState.record, hst8, hst7, hst6, hst5, hst3]
                  simp only [DevState.record, ht2, hucl]
                  simp [List.append_assoc]
                · have hrec0 : (((processed.map (·.1)).zip cbs).flatMap
                      (recordTriple flags scratchBuffer.deviceAddress)).countP
                        (isCreateBufferCall ·) = 0 := by
                    refine List.countP_eq_zero.mpr ?_
                    intro c hc
                    rw [List.mem_flatMap] at hc
                    obtain ⟨p, _, hp⟩ := hc
                    simp only [recordTriple, List.mem_cons, List.not_mem_nil,
                      or_false] at hp
                    rcases hp with rfl | rfl | rfl <;> simp [isCreateBufferCall]
                  have hend0 : (cbs.map (.endCommandBuffer ·)).countP
                      (isCreateBufferCall ·) = 0 := by
                    refine List.countP_eq_zero.mpr ?_
                    intro c hc
                    rw [List.mem_map] at hc
                    obtain ⟨x, _, rfl⟩ := hc
                    simp [isCreateBufferCall]
                  simp only [List.countP_append, hcnt', hrec0, hend0,
                    List.countP_cons, List.countP_nil]
                  simp [isCreateBufferCall]
                · rw [← hmsx]
                  simp
                · intro cb info r hmem
                  simp only [List.append_assoc, List.mem_append, List.mem_cons,
                    List.not_mem_nil, or_false] at hmem
                  rcases hmem with hmem | hmem | hmem | hmem | hmem
                  · have := hnb _ hmem
                    simp [isCmdBuildCall] at this
                  · rcases hmem with hmem | hmem | hmem | hmem | hmem <;> simp at hmem
                  · rcases hmem with hmem | hmem | hmem | hmem <;> simp at hmem
                  · rw [List.mem_flatMap] at hmem
                    obtain ⟨p, _, hp⟩ := hmem
                    simp only [recordTriple, List.mem_cons, List.not_mem_nil,
                      or_false] at hp
                    rcases hp with hp | hp | hp
                    · simp at hp
                    · simp only [DevCall.cmdBuildAccelerationStructures.injEq] at hp
                      rw [hp.2.1, ← hsaddr]
                      rfl
                    · simp at hp
                  · rcases hmem with hmem | hmem
                    · rw [List.mem_map] at hmem
                      obtain ⟨x, _, hx⟩ := hmem
                      simp at hx
                    · rcases hmem with hmem | hmem | hmem | hmem | hmem <;> simp at hmem
                · intro e he
                  have hlen : (processed.map (·.1)).length = cbs.length := by
                    rw [hcbs]
                    simp
                  obtain ⟨cb, hpz⟩ := mem_zip_left hlen he
                  refine ⟨cb, ?_⟩
                  have hc0 : DevCall.cmdBuildAccelerationStructures cb
                      (blasBuildInfo flags e scratchBuffer.deviceAddress)
                      e.input.asBuildOffsetInfo ∈ st7.trace := by
                    rw [hst7]
                    refine List.mem_append_right _ (List.mem_flatMap.mpr ⟨(e, cb), hpz, ?_⟩)
                    simp [recordTriple]
                  rw [← hsaddr]
                  have hsub : ∀ c : DevCall, c ∈ st7.trace →
                      c ∈ ((st8.record .destroyCommandPool).record
                        .destroyQueryPool).trace := by
                    intro c hc
                    simp only [DevState.record, hst8]
                    simp [List.mem_append, hc]
                  exact hsub _ hc0
                · have hsub : ∀ c : DevCall, c ∈ st1.trace →
                      c ∈ ((st8.record .destroyCommandPool).record
                        .destroyQueryPool).trace := by
                    intro c hc
                    simp only [DevState.record, hst8, hst7, hst6, hst5, hst3]
                    simp only [DevState.record, ht2]
                    simp [List.mem_append, hc]
                  rw [List.forall₂_map_left_iff] at hfa
                  rw [List.forall₂_map_right_iff]
                  refine List.Forall₂.imp ?_ hfa
                  intro input p hR
                  obtain ⟨hsi, hinp, _, a, ha, hane, hbsz, hbu, hmem⟩ := hR
                  refine ⟨hinp, a, ha, hane, ?_, hbu, ?_⟩
                  · rw [hbsz, hsi]
                    rfl
                  · have hs2 : (sizesFor o input).accelerationStructureSize =
                        p.2.accelerationStructureSize := by rw [hsi]; rfl
                    rw [hs2]
                    exact hsub _ hmem

/-! ## Claim theorems -/

/-- C1: for every input list passed to `RaytracingBuilder::build_blas` on a
builder with no existing BLAS entries, a successful call produces exactly
one BLAS entry per input; each entry holds a newly created (non-null)
acceleration-structure handle that is recorded as that entry's build
destination in a recorded build command; each entry's owning storage
buffer is created with ACCELERATION_STRUCTURE_STORAGE usage and size
exactly the `acceleration_structure_size` of the build-sizes query for
that entry's geometry; and the structure is created bound to that buffer
at offset 0. -/
theorem buildBlas_one_entry_per_input {o : Oracle} {b b' : RaytracingBuilder}
    {inputs : List BlasInput} {flags : Nat} {st' : DevState}
    (hb : b.blasContainer = [])
    (h : buildBlas o b inputs flags DevState.init = .ok (b', st')) :
    b'.blasContainer.length = inputs.length ∧
    List.Forall₂ (fun (input : BlasInput) (e : BlasEntry) =>
      e.input = input ∧ ∃ a : AccelerationStructure,
        e.accelerationStructure = some a ∧
        a.accel ≠ 0 ∧
        a.buffer.usageFlags.accelerationStructureStorage = true ∧
        a.buffer.size = (sizesFor o input).accelerationStructureSize ∧
        DevCall.createAccelerationStructure a.accel .bottomLevel
          (sizesFor o input).accelerationStructureSize a.buffer.buffer 0 ∈ st'.trace ∧
        ∃ cb info ranges,
          DevCall.cmdBuildAccelerationStructures cb info ranges ∈ st'.trace ∧
          info.dstAccelerationStructure = a.accel ∧
          info.geometries = input.asGeometry)
      inputs b'.blasContainer := by
  obtain ⟨-, -, sh, Δ, -, -, -, -, hcmds, hfa⟩ := buildBlas_ok_master h
  have hlen := hfa.length_eq
  refine ⟨hlen.symm, ?_⟩
  rw [List.forall₂_iff_get] at hfa ⊢
  refine ⟨hlen, ?_⟩
  intro i h1 h2
  obtain ⟨hinp, a, ha, hane, hsz, hflag, hmem⟩ := hfa.2 i h1 h2
  refine ⟨hinp, a, ha, hane, by rw [hflag]; rfl, hsz, hmem, ?_⟩
  obtain ⟨cb, hcb⟩ := hcmds (b'.blasContainer.get ⟨i, h2⟩) (b'.blasContainer.get_mem _ _)
  refine ⟨cb, blasBuildInfo flags (b'.blasContainer.get ⟨i, h2⟩) (deviceAddressOf sh),
    (b'.blasContainer.get ⟨i, h2⟩).input.asBuildOffsetInfo, hcb, ?_, ?_⟩
  · simp only [List.get_eq_getElem] at ha
    simp [blasBuildInfo, ha]
  · simp only [List.get_eq_getElem] at hinp
    simp [blasBuildInfo, hinp]

theorem store_error {o : Oracle} {buf : BufferResource} {st st' : DevState} {f : Failure}
    (h : BufferResource.store o buf st = .error (f, st')) : f = .deviceCallFailed := by
  unfold BufferResource.store at h
  cases hm : nativeCall o st (.mapMemory buf.buffer) with
  | error e =>
    obtain ⟨f1, st1⟩ := e
    rw [hm] at h
    simp only [Except.error.injEq, Prod.mk.injEq] at h
    rw [← h.1]
    exact (nativeCall_error hm).1
  | ok st1 => rw [hm] at h; exact absurd h (by simp)

theorem endAllCommandBuffers_error {o : Oracle} {st st' : DevState} {cbs : List Nat}
    {f : Failure} (h : endAllCommandBuffers o st cbs = .error (f, st')) :
    f = .deviceCallFailed := by
  induction cbs generalizing st with
  | nil => unfold endAllCommandBuffers at h; exact absurd h (by simp)
  | cons cb rest ih =>
    unfold endAllCommandBuffers at h
    cases he : nativeCall o st (.endCommandBuffer cb) with
    | error e =>
      obtain ⟨f1, st1⟩ := e
      rw [he] at h
      simp only [Except.error.injEq, Prod.mk.injEq] at h
      rw [← h.1]
      exact (nativeCall_error he).1
    | ok st1 =>
      rw [he] at h
      exact ih h

theorem submitAndWait_error {o : Oracle} {st st' : DevState} {cbs : List Nat}
    {f : Failure} (h : submitAndWait o cbs st = .error (f, st')) :
    f = .deviceCallFailed := by
  unfold submitAndWait at h
  cases he : endAllCommandBuffers o st cbs with
  | error e =>
    obtain ⟨f1, st1⟩ := e
    rw [he] at h
    simp only [Except.error.injEq, Prod.mk.injEq] at h
    rw [← h.1]
    exact endAllCommandBuffers_error he
  | ok st1 =>
    rw [he] at h
    dsimp only at h
    cases hs : nativeCall o st1 (.queueSubmit cbs) with
    | error e =>
      obtain ⟨f1, st2⟩ := e
      rw [hs] at h
      simp only [Except.error.injEq, Prod.mk.injEq] at h
      rw [← h.1]
      exact (nativeCall_error hs).1
    | ok st2 =>
      rw [hs] at h
      dsimp only at h
      cases hw : nativeCall o st2 .queueWaitIdle with
      | error e =>
        obtain ⟨f1, st3⟩ := e
        rw [hw] at h
        simp only [Except.error.injEq, Prod.mk.injEq] at h
        rw [← h.1]
        exact (nativeCall_error hw).1
      | ok st3 => rw [hw] at h; exact absurd h (by simp)

theorem to_vulkan_error {inst : AccelerationStructureInstance}
    {blasContainer : List BlasEntry} {f : Failure}
    (h : inst.to_vulkan blasContainer = .error f) :
    f = .blasIdOutOfRange ∨ f = .unwrapNone := by
  unfold AccelerationStructureInstance.to_vulkan at h
  cases hg : blasContainer[inst.blasId]? with
  | none =>
    rw [hg] at h
    simp only [Except.error.injEq] at h
    exact Or.inl h.symm
  | some blas =>
    rw [hg] at h
    dsimp only at h
    cases ha : blas.accelerationStructure with
    | none =>
      rw [ha] at h
      simp only [Except.error.injEq] at h
      exact Or.inr h.symm
    | some a => rw [ha] at h; exact absurd h (by simp)

theorem resolveInstances_error {blasContainer : List BlasEntry}
    {instances : List AccelerationStructureInstance} {f : Failure}
    (h : resolveInstances blasContainer instances = .error f) :
    f = .blasIdOutOfRange ∨ f = .unwrapNone := by
  induction instances with
  | nil => unfold resolveInstances at h; exact absurd h (by simp)
  | cons inst rest ih =>
    unfold resolveInstances at h
    cases hv : inst.to_vulkan blasContainer with
    | error f1 =>
      rw [hv] at h
      simp only [Except.error.injEq] at h
      subst h
      exact to_vulkan_error hv
    | ok v =>
      rw [hv] at h
      dsimp only at h
      cases hr : resolveInstances blasContainer rest with
      | error f1 =>
        rw [hr] at h
        simp only [Except.error.injEq] at h
        subst h
        exact ih hr
      | ok vs => rw [hr] at h; exact absurd h (by simp)

/-- Classification of every `build_tlas` panic: the precondition assert
(builder and state untouched), a CPU-side resolve panic (out-of-range
`blas_id` or an unbuilt BLAS) occurring when exactly the transient command
pool has been created, one command buffer allocated and recording begun,
the `todo!()` of the update path, or a failing native call. -/
theorem buildTlas_error_class {o : Oracle} {b b' : RaytracingBuilder}
    {instances : List AccelerationStructureInstance} {flags : Nat} {update : Bool}
    {st st' : DevState} {f : Failure}
    (h : buildTlas o b instances flags update st = .error (f, b', st')) :
    (f = .assertTlasFailed ∧ b' = b ∧ st' = st ∧
      tlasBuildPrecondition b.tlas update = false) ∨
    ((f = .blasIdOutOfRange ∨ f = .unwrapNone) ∧
      resolveInstances b.blasContainer instances = .error f ∧
      st'.trace = st.trace ++
        [.createCommandPool (st.nextHandle + 1),
         .allocateCommandBuffers [st.nextHandle + 2],
         .beginCommandBuffer (st.nextHandle + 2)]) ∨
    (f = .todoUnimplemented ∧ update = true) ∨
    f = .deviceCallFailed := by
  unfold buildTlas at h
  by_cases hpre : tlasBuildPrecondition b.tlas update = true
  case neg =>
    simp only [Bool.not_eq_true] at hpre
    simp only [hpre, Bool.false_eq_true, if_false] at h
    simp only [Except.error.injEq, Prod.mk.injEq] at h
    exact Or.inl ⟨h.1.symm, h.2.1.symm, h.2.2.symm, hpre⟩
  simp only [hpre, if_true] at h
  cases hcp : createCommandPool o st with
  | error e =>
    obtain ⟨f1, st1⟩ := e
    rw [hcp] at h
    simp only [Except.error.injEq, Prod.mk.injEq] at h
    rw [← h.1]
    exact Or.inr (Or.inr (Or.inr (nativeCreate_error hcp).1))
  | ok vp =>
    obtain ⟨cp, st1⟩ := vp
    rw [hcp] at h
    dsimp only at h
    obtain ⟨hcph, hst1⟩ := createCommandPool_ok hcp
    cases hac : allocateCommandBuffers o 1 st1 with
    | error e =>
      obtain ⟨f1, st2⟩ := e
      rw [hac] at h
      simp only [Except.error.injEq, Prod.mk.injEq] at h
      rw [← h.1]
      unfold allocateCommandBuffers at hac
      split at hac
      · exact absurd hac (by simp)
      · simp only [Except.error.injEq, Prod.mk.injEq] at hac
        exact Or.inr (Or.inr (Or.inr hac.1.symm))
    | ok va =>
      obtain ⟨cbs, st2⟩ := va
      rw [hac] at h
      dsimp only at h
      obtain ⟨hcbs, hst2⟩ := allocateCommandBuffers_ok hac
      have hcbs' : cbs = [st.nextHandle + 2] := by
        rw [hcbs, hst1]
        simp [List.range_succ]
      cases hbg : beginCommandBuffer o (cbs.headD 0) st2 with
      | error e =>
        obtain ⟨f1, st3⟩ := e
        rw [hbg] at h
        simp only [Except.error.injEq, Prod.mk.injEq] at h
        rw [← h.1]
        exact Or.inr (Or.inr (Or.inr (nativeCall_error hbg).1))
      | ok st3 =>
        rw [hbg] at h
        dsimp only at h
        have hst3 := beginCommandBuffer_ok hbg
        have ht3 : st3.trace = st.trace ++
            [.createCommandPool (st.nextHandle + 1),
             .allocateCommandBuffers [st.nextHandle + 2],
             .beginCommandBuffer (st.nextHandle + 2)] := by
          rw [hst3, hst2, hst1, hcbs']
          simp [DevState.record, hst1]
        cases hri : resolveInstances b.blasContainer instances with
        | error fr =>
          rw [hri] at h
          simp only [Except.error.injEq, Prod.mk.injEq] at h
          obtain ⟨hf, -, hst⟩ := h
          refine Or.inr (Or.inl ⟨?_, ?_, ?_⟩)
          · rw [← hf]
            exact resolveInstances_error hri
          · rw [← hf]
          · rw [← hst, ht3]
        | ok geomInstances =>
          rw [hri] at h
          dsimp only at h
          by_cases hu : update = true
          · simp only [hu, if_true] at h
            simp only [Except.error.injEq, Prod.mk.injEq] at h
            exact Or.inr (Or.inr (Or.inl ⟨h.1.symm, hu⟩))
          · simp only [Bool.not_eq_true] at hu
            simp only [hu, Bool.false_eq_true, if_false] at h
            cases hib : BufferResource.new o (instances.length * instanceKhrSize)
                deviceAddressOnlyUsage hostDeviceAddressMem st3 with
            | error e =>
              obtain ⟨f1, st4⟩ := e
              rw [hib] at h
              simp only [Except.error.injEq, Prod.mk.injEq] at h
              rw [← h.1]
              exact Or.inr (Or.inr (Or.inr (BufferResource.new_error hib).1))
            | ok vi =>
              obtain ⟨instancesBuffer, st4⟩ := vi
              rw [hib] at h
              dsimp only at h
              cases hsto : instancesBuffer.store o st4 with
              | error e =>
                obtain ⟨f1, st5⟩ := e
                rw [hsto] at h
                simp only [Except.error.injEq, Prod.mk.injEq] at h
                rw [← h.1]
                exact Or.inr (Or.inr (Or.inr (store_error hsto)))
              | ok st5 =>
                rw [hsto] at h
                dsimp only at h
                cases htb : BufferResource.new o
                    (o.sizes [Geometry.instances instancesBuffer.deviceAddress false]
                      [instances.length]).accelerationStructureSize
                    accelStorageUsage fastDeviceMem
                    ((st5.record (.cmdPipelineBarrier (cbs.headD 0) .transferWrite
                      .accelerationStructureWrite)).record
                      (.getBuildSizes
                        [Geometry.instances instancesBuffer.deviceAddress false]
                        [instances.length])) with
                | error e =>
                  obtain ⟨f1, st6⟩ := e
                  rw [htb] at h
                  simp only [Except.error.injEq, Prod.mk.injEq] at h
                  rw [← h.1]
                  exact Or.inr (Or.inr (Or.inr (BufferResource.new_error htb).1))
                | ok vt =>
                  obtain ⟨tlasBuffer, st6⟩ := vt
                  rw [htb] at h
                  dsimp only at h
                  cases hta : createAccelerationStructure o .topLevel
                      (o.sizes [Geometry.instances instancesBuffer.deviceAddress false]
                        [instances.length]).accelerationStructureSize
                      tlasBuffer.buffer 0 st6 with
                  | error e =>
                    obtain ⟨f1, st7⟩ := e
                    rw [hta] at h
                    simp only [Except.error.injEq, Prod.mk.injEq] at h
                    rw [← h.1]
                    exact Or.inr (Or.inr (Or.inr (nativeCreate_error hta).1))
                  | ok vta =>
                    obtain ⟨tlasHandle, st7⟩ := vta
                    rw [hta] at h
                    dsimp only at h
                    cases hsb : BufferResource.new o
                        (o.sizes [Geometry.instances instancesBuffer.deviceAddress false]
                          [instances.length]).accelerationStructureSize
                        accelStorageUsage fastDeviceMem st7 with
                    | error e =>
                      obtain ⟨f1, st8⟩ := e
                      rw [hsb] at h
                      simp only [Except.error.injEq, Prod.mk.injEq] at h
                      rw [← h.1]
                      exact Or.inr (Or.inr (Or.inr (BufferResource.new_error hsb).1))
                    | ok vsb =>
                      obtain ⟨scratchBuffer, st8⟩ := vsb
                      rw [hsb] at h
                      dsimp only at h
                      cases hsw : submitAndWait o [cbs.headD 0]
                          (st8.record (.cmdBuildAccelerationStructures (cbs.headD 0)
                            { flags := flags
                              geometries := [Geometry.instances
                                instancesBuffer.deviceAddress false]
                              mode := .build
                              typ := .topLevel
                              srcAccelerationStructure := 0
                              dstAccelerationStructure := tlasHandle
                              scratchDeviceAddress := scratchBuffer.deviceAddress }
                            [⟨instances.length, 0, 0, 0⟩])) with
                      | error e =>
                        obtain ⟨f1, st9⟩ := e
                        rw [hsw] at h
                        simp only [Except.error.injEq, Prod.mk.injEq] at h
                        rw [← h.1]
                        exact Or.inr (Or.inr (Or.inr (submitAndWait_error hsw)))
                      | ok st9 =>
                        rw [hsw] at h
                        exact absurd h (by simp)

/-- A successful `build_tlas` run implies `update = false`: every
`update = true` call panics (at the `todo!()` if nothing fails earlier). -/
theorem buildTlas_ok_update_false {o : Oracle} {b : RaytracingBuilder}
    {instances : List AccelerationStructureInstance} {flags : Nat} {update : Bool}
    {st : DevState} {r : RaytracingBuilder × DevState}
    (h : buildTlas o b instances flags update st = .ok r) : update = false := by
  by_cases hu : update = true
  · exfalso
    subst hu
    unfold buildTlas at h
    by_cases hpre : tlasBuildPrecondition b.tlas true = true
    · simp only [hpre, if_true] at h
      cases hcp : createCommandPool o st with
      | error e => rw [hcp] at h; exact absurd h (by simp)
      | ok vp =>
        obtain ⟨cp, st1⟩ := vp
        rw [hcp] at h
        dsimp only at h
        cases hac : allocateCommandBuffers o 1 st1 with
        | error e => rw [hac] at h; exact absurd h (by simp)
        | ok va =>
          obtain ⟨cbs, st2⟩ := va
          rw [hac] at h
          dsimp only at h
          cases hbg : beginCommandBuffer o (cbs.headD 0) st2 with
          | error e => rw [hbg] at h; exact absurd h (by simp)
          | ok st3 =>
            rw [hbg] at h
            dsimp only at h
            cases hri : resolveInstances b.blasContainer instances with
            | error fr => rw [hri] at h; exact absurd h (by simp)
            | ok geomInstances =>
              rw [hri] at h
              simp at h
    · simp only [Bool.not_eq_true] at hpre
      simp only [hpre, Bool.false_eq_true, if_false] at h
      exact absurd h (by simp)
  · simpa using hu

/-- C2: during every successful `build_blas` call (on a fresh device
state), exactly one buffer beyond the per-entry storage buffers is
allocated — the shared scratch buffer — its size is the maximum of
`build_scratch_size` over all entries of the batch, and every recorded
build command addresses that single scratch buffer. -/
theorem buildBlas_single_shared_scratch {o : Oracle} {b b' : RaytracingBuilder}
    {inputs : List BlasInput} {flags : Nat} {st' : DevState}
    (h : buildBlas o b inputs flags DevState.init = .ok (b', st')) :
    ∃ scratchHandle,
      st'.trace.countP (isCreateBufferCall ·) = inputs.length + 1 ∧
      DevCall.createBuffer scratchHandle (maxScratchOf o inputs) accelStorageUsage
        ∈ st'.trace ∧
      ∀ cb info r, DevCall.cmdBuildAccelerationStructures cb info r ∈ st'.trace →
        info.scratchDeviceAddress = deviceAddressOf scratchHandle := by
  obtain ⟨-, -, sh, Δ, htr, hcnt, hmem, hscr, -, -⟩ := buildBlas_ok_master h
  have hΔ : st'.trace = Δ := by rw [htr]; rfl
  exact ⟨sh, by rw [hΔ, hcnt], by rw [hΔ]; exact hmem,
    fun cb info r hm => hscr cb info r (by rw [← hΔ]; exact hm)⟩

/-- C5 (amended): a `build_blas` failure after the append-once assert
leaves a partial batch recorded: the BLAS container holds exactly one
entry per input (all entries are appended before any device call), with
only the entries processed before the failing call populated; no rollback
occurs. -/
theorem buildBlas_failure_keeps_full_container {o : Oracle} {b b' : RaytracingBuilder}
    {inputs : List BlasInput} {flags : Nat} {st st' : DevState} {f : Failure}
    (h : buildBlas o b inputs flags st = .error (f, b', st'))
    (hf : f ≠ .assertBlasNotEmpty) :
    b'.blasContainer.length = inputs.length := by
  unfold buildBlas at h
  by_cases hemp : b.blasContainer.isEmpty
  case neg =>
    simp only [Bool.not_eq_true] at hemp
    simp only [hemp, Bool.false_eq_true, if_false] at h
    simp only [Except.error.injEq, Prod.mk.injEq] at h
    exact absurd h.1.symm hf
  simp only [hemp, if_true] at h
  cases hcl : blasCreateLoop o st 0 (inputs.map BlasEntry.new) with
  | error ec =>
    obtain ⟨f1, cont, st1⟩ := ec
    rw [hcl] at h
    simp only [Except.error.injEq, Prod.mk.injEq] at h
    rw [← h.2.1]
    have := blasCreateLoop_error_length hcl
    simpa using this
  | ok vc =>
    obtain ⟨processed, maxScratch, st1⟩ := vc
    rw [hcl] at h
    dsimp only at h
    obtain ⟨-, -, hfa⟩ := blasCreateLoop_ok hcl
    have hplen : processed.length = inputs.length := by
      have := hfa.length_eq
      simpa using this.symm
    have hb1 : ∀ b2 : RaytracingBuilder,
        b2 = { b with blasContainer := processed.map (·.1) } →
        b2.blasContainer.length = inputs.length := by
      intro b2 hb2
      rw [hb2]
      simpa using hplen
    cases hsc : BufferResource.new o maxScratch accelStorageUsage fastDeviceMem st1 with
    | error es' =>
      obtain ⟨f1, st2⟩ := es'
      rw [hsc] at h
      simp only [Except.error.injEq, Prod.mk.injEq] at h
      exact hb1 b' h.2.1.symm
    | ok vs =>
      obtain ⟨scratchBuffer, st2⟩ := vs
      rw [hsc] at h
      dsimp only at h
      cases hqp : createQueryPool o (processed.map (·.1)).length st2 with
      | error eq' =>
        obtain ⟨f1, st3⟩ := eq'
        rw [hqp] at h
        simp only [Except.error.injEq, Prod.mk.injEq] at h
        exact hb1 b' h.2.1.symm
      | ok vq =>
        obtain ⟨qp, st3⟩ := vq
        rw [hqp] at h
        dsimp only at h
        cases hcp : createCommandPool o
            (st3.record (.resetQueryPool (processed.map (·.1)).length)) with
        | error ep =>
          obtain ⟨f1, st5⟩ := ep
          rw [hcp] at h
          simp only [Except.error.injEq, Prod.mk.injEq] at h
          exact hb1 b' h.2.1.symm
        | ok vp =>
          obtain ⟨cp, st5⟩ := vp
          rw [hcp] at h
          dsimp only at h
          cases hac : allocateCommandBuffers o (processed.map (·.1)).length st5 with
          | error ea =>
            obtain ⟨f1, st6⟩ := ea
            rw [hac] at h
            simp only [Except.error.injEq, Prod.mk.injEq] at h
            exact hb1 b' h.2.1.symm
          | ok va =>
            obtain ⟨cbs, st6⟩ := va
            rw [hac] at h
            dsimp only at h
            cases hrl : blasRecordLoop o flags scratchBuffer.deviceAddress st6
                ((processed.map (·.1)).zip cbs) with
            | error er =>
              obtain ⟨f1, st7⟩ := er
              rw [hrl] at h
              simp only [Except.error.injEq, Prod.mk.injEq] at h
              exact hb1 b' h.2.1.symm
            | ok st7 =>
              rw [hrl] at h
              dsimp only at h
              cases hsw : submitAndWait o cbs st7 with
              | error ew =>
                obtain ⟨f1, st8⟩ := ew
                rw [hsw] at h
                simp only [Except.error.injEq, Prod.mk.injEq] at h
                exact hb1 b' h.2.1.symm
              | ok st8 =>
                rw [hsw] at h
                exact absurd h (by simp)

/-- C6: `build_blas` fails (the append-once `assert!`) whenever the
builder already has BLAS entries, leaving the builder untouched, and
succeeds only when the BLAS container was empty. -/
theorem buildBlas_append_once (o : Oracle) (b : RaytracingBuilder)
    (inputs : List BlasInput) (flags : Nat) (st : DevState) :
    (b.blasContainer ≠ [] →
      buildBlas o b inputs flags st = .error (.assertBlasNotEmpty, b, st)) ∧
    (∀ r, buildBlas o b inputs flags st = .ok r → b.blasContainer = []) := by
  constructor
  · intro hne
    unfold buildBlas
    have hf : b.blasContainer.isEmpty = false := by
      cases hc : b.blasContainer with
      | nil => exact absurd hc hne
      | cons x xs => rfl
    simp [hf]
  · intro r hr
    by_cases he : b.blasContainer.isEmpty
    · exact List.isEmpty_iff.mp he
    · unfold buildBlas at hr
      simp only [Bool.not_eq_true] at he
      simp only [he, Bool.false_eq_true, if_false] at hr
      exact absurd hr (by simp)

/-- C3 (amended): a `build_tlas` call that panics on an out-of-range
`blas_id` does so during the CPU-side resolve pass, before any buffer
allocation, build-sizes query, build-command recording or submission —
but after three device calls (transient command-pool creation, command
buffer allocation, begin of recording). -/
theorem buildTlas_oob_fails_after_setup {o : Oracle} {b b' : RaytracingBuilder}
    {instances : List AccelerationStructureInstance} {flags : Nat} {update : Bool}
    {st st' : DevState}
    (h : buildTlas o b instances flags update st = .error (.blasIdOutOfRange, b', st')) :
    st'.trace = st.trace ++
      [.createCommandPool (st.nextHandle + 1),
       .allocateCommandBuffers [st.nextHandle + 2],
       .beginCommandBuffer (st.nextHandle + 2)] ∧
    ∀ c ∈ st'.trace.drop st.trace.length,
      isCreateBufferCall c = false ∧ isCmdBuildCall c = false ∧
      c ≠ .queueSubmit [st.nextHandle + 2] := by
  rcases buildTlas_error_class h with hcl | hcl | hcl | hcl
  · exact absurd hcl.1 (by simp)
  · obtain ⟨-, -, htr⟩ := hcl
    refine ⟨htr, ?_⟩
    intro c hc
    rw [htr, List.drop_append_of_le_length (by simp), List.drop_length] at hc
    simp only [List.nil_append, List.mem_cons, List.not_mem_nil, or_false] at hc
    rcases hc with rfl | rfl | rfl <;> exact ⟨rfl, rfl, by simp⟩
  · exact absurd hcl.1 (by simp)
  · exact absurd hcl (by simp)

/-- C4 (amended): the `build_tlas` precondition assert fires exactly when
a TLAS already exists and `update` is false; with `update = true` the
precondition always passes — there is no NotBuilt check — and the call
then never succeeds (it panics at the unimplemented update path, or
earlier). -/
theorem buildTlas_precondition_amended (o : Oracle) (b : RaytracingBuilder)
    (instances : List AccelerationStructureInstance) (flags : Nat) (update : Bool)
    (st : DevState) :
    ((∃ b' st', buildTlas o b instances flags update st =
        .error (.assertTlasFailed, b', st')) ↔
      (b.tlas.accelerationStructure.isSome = true ∧ update = false)) ∧
    (update = true → tlasBuildPrecondition b.tlas update = true ∧
      isOkRun (buildTlas o b instances flags update st) = false) := by
  constructor
  · constructor
    · rintro ⟨b', st', h⟩
      rcases buildTlas_error_class h with hcl | hcl | hcl | hcl
      · have hp := hcl.2.2.2
        unfold tlasBuildPrecondition at hp
        simp only [Bool.or_eq_false_iff] at hp
        refine ⟨?_, hp.2⟩
        have hn := hp.1
        cases hopt : b.tlas.accelerationStructure with
        | none => rw [hopt] at hn; simp at hn
        | some a => simp [hopt]
      · exact absurd hcl.1 (by rintro (h1 | h1) <;> simp at h1)
      · exact absurd hcl.1 (by simp)
      · exact absurd hcl (by simp)
    · rintro ⟨hsome, hup⟩
      refine ⟨b, st, ?_⟩
      unfold buildTlas
      have hp : tlasBuildPrecondition b.tlas update = false := by
        unfold tlasBuildPrecondition
        rw [hup]
        cases hopt : b.tlas.accelerationStructure with
        | none => rw [hopt] at hsome; simp at hsome
        | some a => simp
      simp [hp]
  · intro hup
    subst hup
    constructor
    · unfold tlasBuildPrecondition
      simp
    · cases hres : buildTlas o b instances flags true st with
      | ok r => exact absurd (buildTlas_ok_update_false hres) (by simp)
      | error e => rfl

def oracleW : Oracle := Oracle.total ⟨256, 64, 128⟩
def inputW1 : BlasInput := ⟨[.triangles 7], [⟨1, 0, 0, 0⟩]⟩
def inputW2 : BlasInput := ⟨[.triangles 9], [⟨2, 0, 0, 0⟩]⟩
def blasRunW := buildBlas oracleW RaytracingBuilder.new [inputW1, inputW2] 0 DevState.init
def oracleFail8 : Oracle := ⟨fun _ _ => ⟨256, 64, 128⟩, fun n => n != 8⟩
def blasRunFail := buildBlas oracleFail8 RaytracingBuilder.new [inputW1, inputW2] 0 DevState.init
def oobInstance : AccelerationStructureInstance := ⟨0, 0, 0, 0, 0, 0⟩
def tlasOobRun := buildTlas oracleW RaytracingBuilder.new [oobInstance] 0 false DevState.init
def tlasUpdateNoTlasRun := buildTlas oracleW RaytracingBuilder.new [] 0 true DevState.init
def builtTlasBuilder : RaytracingBuilder :=
  ⟨[], ⟨some ⟨7, ⟨5, 256, accelStorageUsage, fastDeviceMem, 20480⟩⟩, 0⟩⟩
def tlasUpdateRun := buildTlas oracleW builtTlasBuilder [] 0 true DevState.init

theorem buildBlas_one_entry_per_input_witness :
    (builderOf blasRunW).blasContainer.length = [inputW1, inputW2].length ∧
    List.Forall₂ (fun (input : BlasInput) (e : BlasEntry) =>
      e.input = input ∧ ∃ a : AccelerationStructure,
        e.accelerationStructure = some a ∧
        a.accel ≠ 0 ∧
        a.buffer.usageFlags.accelerationStructureStorage = true ∧
        a.buffer.size = (sizesFor oracleW input).accelerationStructureSize ∧
        DevCall.createAccelerationStructure a.accel .bottomLevel
          (sizesFor oracleW input).accelerationStructureSize a.buffer.buffer 0
          ∈ (devStateOf blasRunW).trace ∧
        ∃ cb info ranges,
          DevCall.cmdBuildAccelerationStructures cb info ranges
            ∈ (devStateOf blasRunW).trace ∧
          info.dstAccelerationStructure = a.accel ∧
          info.geometries = input.asGeometry)
      [inputW1, inputW2] (builderOf blasRunW).blasContainer :=
  @buildBlas_one_entry_per_input oracleW RaytracingBuilder.new (builderOf blasRunW)
    [inputW1, inputW2] 0 (devStateOf blasRunW) rfl (by rfl)

theorem buildBlas_single_shared_scratch_witness :
    ∃ scratchHandle,
      (devStateOf blasRunW).trace.countP (isCreateBufferCall ·) =
        [inputW1, inputW2].length + 1 ∧
      DevCall.createBuffer scratchHandle (maxScratchOf oracleW [inputW1, inputW2])
        accelStorageUsage ∈ (devStateOf blasRunW).trace ∧
      ∀ cb info r, DevCall.cmdBuildAccelerationStructures cb info r
          ∈ (devStateOf blasRunW).trace →
        info.scratchDeviceAddress = deviceAddressOf scratchHandle :=
  @buildBlas_single_shared_scratch oracleW RaytracingBuilder.new (builderOf blasRunW)
    [inputW1, inputW2] 0 (devStateOf blasRunW) (by rfl)

/-- C3 (counterexample): with an empty BLAS container and one instance with
`blas_id = 0`, `build_tlas` does fail on the out-of-range id — but only
after three device calls (command-pool creation, command-buffer
allocation, begin), not before any device call as the claim states. -/
theorem buildTlas_oob_counterexample :
    tlasOobRun = .error (.blasIdOutOfRange, RaytracingBuilder.new,
      ⟨2, [.createCommandPool 1, .allocateCommandBuffers [2],
           .beginCommandBuffer 2]⟩) ∧
    (devStateOf tlasOobRun).trace.length = 3 := ⟨rfl, rfl⟩

theorem buildTlas_oob_fails_after_setup_witness :
    (devStateOf tlasOobRun).trace = DevState.init.trace ++
      [.createCommandPool (DevState.init.nextHandle + 1),
       .allocateCommandBuffers [DevState.init.nextHandle + 2],
       .beginCommandBuffer (DevState.init.nextHandle + 2)] ∧
    ∀ c ∈ (devStateOf tlasOobRun).trace.drop DevState.init.trace.length,
      isCreateBufferCall c = false ∧ isCmdBuildCall c = false ∧
      c ≠ .queueSubmit [DevState.init.nextHandle + 2] :=
  @buildTlas_oob_fails_after_setup oracleW RaytracingBuilder.new
    (builderOf tlasOobRun) [oobInstance] 0 false DevState.init
    (devStateOf tlasOobRun) (by rfl)

/-- C4 (counterexample): with no TLAS and `update = true` the
precondition check passes (there is no NotBuilt failure at the
precondition, contrary to the claim); the call then panics at the
unimplemented `todo!()` update path instead. -/
theorem buildTlas_precondition_counterexample :
    tlasBuildPrecondition ⟨none, 0⟩ true = true ∧
    tlasUpdateNoTlasRun = .error (.todoUnimplemented, RaytracingBuilder.new,
      ⟨2, [.createCommandPool 1, .allocateCommandBuffers [2],
           .beginCommandBuffer 2]⟩) := ⟨rfl, rfl⟩

/-- C5 (counterexample): an oracle failing the 9th native call (the
second entry's storage-buffer creation) makes `build_blas` panic while the
builder records a partial batch: two entries, the first populated with a
handle, the second not — neither "all entries valid" nor "as if the
operation had not started". -/
theorem buildBlas_partial_state_counterexample :
    isOkRun blasRunFail = false ∧
    (builderOf blasRunFail).blasContainer.map
      (fun e => e.accelerationStructure.isSome) = [true, false] := ⟨rfl, rfl⟩

theorem buildBlas_failure_keeps_full_container_witness :
    (builderOf blasRunFail).blasContainer.length = [inputW1, inputW2].length :=
  @buildBlas_failure_keeps_full_container oracleFail8 RaytracingBuilder.new
    (builderOf blasRunFail) [inputW1, inputW2] 0 DevState.init
    (devStateOf blasRunFail) .deviceCallFailed (by rfl) (by decide)

def nonEmptyBuilder : RaytracingBuilder := ⟨[BlasEntry.new inputW1], ⟨none, 0⟩⟩

theorem buildBlas_append_once_witness :
    buildBlas oracleW nonEmptyBuilder [inputW2] 0 DevState.init =
      .error (.assertBlasNotEmpty, nonEmptyBuilder, DevState.init) :=
  (buildBlas_append_once oracleW nonEmptyBuilder [inputW2] 0 DevState.init).1
    (by decide)

/-- C7: on a builder whose TLAS is already built, `build_tlas` with
`update = true` does not succeed and does not destroy the previous
instance buffer: it panics at the source's `todo!()` placed where the
instance buffer was to be deleted. -/
theorem buildTlas_update_todo_panics :
    builtTlasBuilder.tlas.accelerationStructure.isSome = true ∧
    tlasUpdateRun = .error (.todoUnimplemented, builtTlasBuilder,
      ⟨2, [.createCommandPool 1, .allocateCommandBuffers [2],
           .beginCommandBuffer 2]⟩) := ⟨rfl, rfl⟩

theorem countOnesAux_stable {fuel1 fuel2 n : Nat} (h1 : n ≤ fuel1) (h2 : n ≤ fuel2) :
    countOnesAux fuel1 n = countOnesAux fuel2 n := by
  induction fuel1 generalizing fuel2 n with
  | zero =>
    have hn : n = 0 := Nat.le_zero.mp h1
    subst hn
    cases fuel2 with
    | zero => rfl
    | succ f => simp [countOnesAux]
  | succ f1 ih =>
    cases fuel2 with
    | zero =>
      have hn : n = 0 := Nat.le_zero.mp h2
      subst hn
      simp [countOnesAux]
    | succ f2 =>
      by_cases hn : n = 0
      · subst hn; simp [countOnesAux]
      · simp only [countOnesAux, hn, if_false]
        have hd : n / 2 ≤ f1 := by omega
        have hd2 : n / 2 ≤ f2 := by omega
        rw [ih hd hd2]

theorem count_ones_zero : count_ones 0 = 0 := rfl

theorem count_ones_pos {n : Nat} (h : n ≠ 0) :
    count_ones n = n % 2 + count_ones (n / 2) := by
  unfold count_ones
  cases n with
  | zero => exact absurd rfl h
  | succ m =>
    simp only [countOnesAux, Nat.succ_ne_zero, if_false]
    congr 1
    exact countOnesAux_stable (by omega) (le_refl _)

theorem count_ones_eq_zero_iff (n : Nat) : count_ones n = 0 ↔ n = 0 := by
  induction n using Nat.strong_induction_on with
  | _ n ih =>
    by_cases h : n = 0
    · subst h; simp [count_ones_zero]
    · rw [count_ones_pos h]
      constructor
      · intro he
        have h2 : n % 2 = 0 ∧ count_ones (n / 2) = 0 := by omega
        have hh := (ih (n / 2) (Nat.div_lt_self (Nat.pos_of_ne_zero h) one_lt_two)).mp h2.2
        omega
      · intro he
        exact absurd he h

theorem count_ones_eq_one_iff (n : Nat) : count_ones n = 1 ↔ ∃ k, n = 2 ^ k := by
  induction n using Nat.strong_induction_on with
  | _ n ih =>
    by_cases h0 : n = 0
    · subst h0
      simp only [count_ones_zero]
      constructor
      · intro h; exact absurd h (by norm_num)
      · rintro ⟨k, hk⟩
        exact absurd hk.symm (pow_ne_zero k two_ne_zero)
    · rw [count_ones_pos h0]
      have hlt : n / 2 < n := Nat.div_lt_self (Nat.pos_of_ne_zero h0) one_lt_two
      rcases Nat.even_or_odd n with he | ho
      · have hm2 : n % 2 = 0 := Nat.even_iff.mp he
        rw [hm2]
        constructor
        · intro hc
          obtain ⟨k, hk⟩ := (ih (n / 2) hlt).mp (by omega)
          refine ⟨k + 1, ?_⟩
          have hn2 : n = 2 * (n / 2) := by omega
          rw [hn2, hk, pow_succ]
          ring
        · rintro ⟨k, rfl⟩
          cases k with
          | zero => simp at hm2
          | succ j =>
            have hdiv : 2 ^ (j + 1) / 2 = 2 ^ j := by
              rw [pow_succ]
              exact Nat.mul_div_cancel _ (by norm_num)
            have := (ih (2 ^ (j + 1) / 2) hlt).mpr ⟨j, hdiv⟩
            omega
      · have hm2 : n % 2 = 1 := Nat.odd_iff.mp ho
        rw [hm2]
        constructor
        · intro hc
          have hz : count_ones (n / 2) = 0 := by omega
          have h2 := (count_ones_eq_zero_iff (n / 2)).mp hz
          exact ⟨0, by omega⟩
        · rintro ⟨k, rfl⟩
          cases k with
          | zero =>
            norm_num
            rw [count_ones_zero]
          | succ j =>
            rw [pow_succ] at hm2
            omega

theorem is_power_of_two_iff (n : Nat) :
    is_power_of_two n = true ↔ ∃ k, n = 2 ^ k := by
  unfold is_power_of_two
  rw [beq_iff_eq]
  exact count_ones_eq_one_iff n

theorem align_up_isSome_iff (a s : Nat) :
    (align_up a s).isSome = true ↔ s + a < u64Size := by
  unfold align_up checked_add
  by_cases h : s + a < u64Size
  · simp [h]
  · simp [h]

/-- C8: `BufferInfo::is_valid` returns true exactly when `align + 1` is a
(`u64`-representable) power of two and `size` rounds up under the
alignment mask without `u64` overflow; it is false for every other
combination, including `align = u64::MAX` (where `align + 1` overflows)
and round-up overflow. -/
theorem bufferInfo_is_valid_iff (info : BufferInfo)
    (ha : info.align < u64Size) (hs : info.size < u64Size) :
    (info.is_valid = true ↔
      ((∃ k, k < 64 ∧ info.align + 1 = 2 ^ k) ∧ info.size + info.align < u64Size)) := by
  unfold BufferInfo.is_valid checked_add
  by_cases hov : info.align + 1 < u64Size
  · simp only [hov, if_true, Bool.and_eq_true, align_up_isSome_iff,
      is_power_of_two_iff]
    constructor
    · rintro ⟨⟨k, hk⟩, hro⟩
      refine ⟨⟨k, ?_, hk⟩, hro⟩
      have : (2 : Nat) ^ k < 2 ^ 64 := by
        rw [← hk]
        exact hov
      exact (Nat.pow_lt_pow_iff_right (by norm_num)).mp this
    · rintro ⟨⟨k, -, hk⟩, hro⟩
      exact ⟨⟨k, hk⟩, hro⟩
  · simp only [hov, if_false]
    simp only [Bool.false_and, Bool.false_eq_true, false_iff]
    rintro ⟨⟨k, hk, hke⟩, -⟩
    have heq : info.align + 1 = u64Size := by
      unfold u64Size at hov ha ⊢
      omega
    rw [hke] at heq
    unfold u64Size at heq
    have := (Nat.pow_right_injective (le_refl 2)).eq_iff.mp heq
    omega

def validInfoW : BufferInfo := ⟨255, 100, accelStorageUsage, fastDeviceMem⟩

theorem bufferInfo_is_valid_iff_witness :
    validInfoW.align < u64Size ∧ validInfoW.size < u64Size ∧
    (validInfoW.is_valid = true ↔
      ((∃ k, k < 64 ∧ validInfoW.align + 1 = 2 ^ k) ∧
        validInfoW.size + validInfoW.align < u64Size)) :=
  ⟨by decide, by decide,
    bufferInfo_is_valid_iff validInfoW (by decide) (by decide)⟩

/-- C9 (amended): `Device::create_buffer` performs no `BufferInfo`
validation: whatever the info — `is_valid` or not — its first action is
the native buffer creation with the requested size and usage; `is_valid`
is never consulted (it has no callers in the source). -/
theorem create_buffer_no_validation (o : Oracle) (info : BufferInfo)
    (allocationFlags : MemoryUsageFlags) (st : DevState) :
    ∃ t, (stateOf (Device.create_buffer o info allocationFlags st)).trace =
      st.trace ++ DevCall.createBuffer (st.nextHandle + 1) info.size info.usageFlags
        :: t := by
  unfold Device.create_buffer
  cases hc : nativeCreate o st (fun h => .createBuffer h info.size info.usageFlags) with
  | error e =>
    obtain ⟨f, st1⟩ := e
    obtain ⟨-, hst1⟩ := nativeCreate_error hc
    unfold stateOf
    dsimp only
    rw [hst1]
    exact ⟨[], rfl⟩
  | ok v =>
    obtain ⟨buffer, st1⟩ := v
    obtain ⟨hbuf, hst1⟩ := nativeCreate_ok hc
    subst hbuf
    dsimp only
    cases ha : nativeCall o (st1.record
        (.getBufferMemoryRequirements (st.nextHandle + 1)))
        (.allocMemory (st.nextHandle + 1)) with
    | error e =>
      obtain ⟨f, st2⟩ := e
      obtain ⟨-, hst2⟩ := nativeCall_error ha
      unfold stateOf
      dsimp only
      rw [hst2, DevState.record, DevState.record, hst1]
      refine ⟨[.getBufferMemoryRequirements (st.nextHandle + 1),
        .allocMemory (st.nextHandle + 1)], ?_⟩
      simp
    | ok st3 =>
      dsimp only
      have hst3 := nativeCall_ok ha
      cases hb : nativeCall o st3 (.bindBufferMemory (st.nextHandle + 1)) with
      | error e =>
        obtain ⟨f, st4⟩ := e
        obtain ⟨-, hst4⟩ := nativeCall_error hb
        unfold stateOf
        dsimp only
        rw [hst4, DevState.record, hst3, DevState.record, DevState.record, hst1]
        refine ⟨[.getBufferMemoryRequirements (st.nextHandle + 1),
          .allocMemory (st.nextHandle + 1),
          .bindBufferMemory (st.nextHandle + 1)], ?_⟩
        simp
      | ok st4 =>
        dsimp only
        have hst4 := nativeCall_ok hb
        by_cases hda : allocationFlags.deviceAddress = true
        · simp only [hda, if_true]
          unfold stateOf
          dsimp only
          rw [DevState.record, hst4, DevState.record, hst3, DevState.record,
            DevState.record, hst1]
          refine ⟨[.getBufferMemoryRequirements (st.nextHandle + 1),
            .allocMemory (st.nextHandle + 1),
            .bindBufferMemory (st.nextHandle + 1),
            .getBufferDeviceAddress (st.nextHandle + 1)], ?_⟩
          simp
        · simp only [Bool.not_eq_true] at hda
          simp only [hda, Bool.false_eq_true, if_false]
          unfold stateOf
          dsimp only
          rw [hst4, DevState.record, hst3, DevState.record, DevState.record, hst1]
          refine ⟨[.getBufferMemoryRequirements (st.nextHandle + 1),
            .allocMemory (st.nextHandle + 1),
            .bindBufferMemory (st.nextHandle + 1)], ?_⟩
          simp

def invalidInfo : BufferInfo := ⟨2, 0, deviceAddressOnlyUsage, hostDeviceAddressMem⟩
def createBufferRun :=
  Device.create_buffer oracleW invalidInfo hostDeviceAddressMem DevState.init

/-- C9 (counterexample): `invalidInfo` has `align + 1 = 3`, not a power of
two, so `is_valid` is false — yet `create_buffer` does not reject it: the
call succeeds and its very first device call is the native buffer
creation. -/
theorem create_buffer_no_validation_counterexample :
    invalidInfo.is_valid = false ∧
    isOkRun createBufferRun = true ∧
    (stateOf createBufferRun).trace.head? =
      some (.createBuffer 1 invalidInfo.size invalidInfo.usageFlags) :=
  ⟨by decide, rfl, rfl⟩

theorem index_injective : ∀ t1 t2 : DescriptorType,
    t1.index = t2.index → t1 = t2 := by decide

theorem index_typeOfIndex : ∀ i : Fin 12, (typeOfIndex i).index = i := by decide

theorem from_index_injective : ∀ i j : Fin 12,
    descriptor_type_from_index i = descriptor_type_from_index j → i = j := by decide

/-- Index-based per-type total. -/
def typeCountIdx (bindings : List DescriptorSetLayoutBinding) (i : Fin 12) : Nat :=
  (bindings.map (fun bd => if bd.descriptorType.index = i then bd.count else 0)).sum

theorem typeCount_eq_idx (bindings : List DescriptorSetLayoutBinding)
    (t : DescriptorType) : typeCount bindings t = typeCountIdx bindings t.index := by
  unfold typeCount typeCountIdx
  induction bindings with
  | nil => rfl
  | cons bd rest ih =>
    simp only [List.map_cons, List.sum_cons, ih]
    congr 1
    by_cases h : bd.descriptorType = t
    · simp [h]
    · have h2 : bd.descriptorType.index ≠ t.index := fun he =>
        h (index_injective _ _ he)
      simp [h, h2]

theorem from_bindings_sizes (bindings : List DescriptorSetLayoutBinding) :
    ∀ (s : Fin 12 → Nat) (i : Fin 12), s i < u32Size →
    (bindings.foldl DescriptorSizesBuilder.add_binding ⟨s⟩).sizes i =
      (s i + typeCountIdx bindings i) % u32Size := by
  induction bindings with
  | nil =>
    intro s i hs
    simp only [List.foldl_nil, typeCountIdx, List.map_nil, List.sum_nil,
      Nat.add_zero]
    exact (Nat.mod_eq_of_lt hs).symm
  | cons bd rest ih =>
    intro s i hs
    simp only [List.foldl_cons]
    have hadd : DescriptorSizesBuilder.add_binding ⟨s⟩ bd =
        ⟨fun j => if j = bd.descriptorType.index then (s j + bd.count) % u32Size
                  else s j⟩ := rfl
    rw [hadd]
    by_cases hi : i = bd.descriptorType.index
    · have hlt : ((fun j => if j = bd.descriptorType.index
          then (s j + bd.count) % u32Size else s j) i) < u32Size := by
        simp only [hi, if_true]
        exact Nat.mod_lt _ (by unfold u32Size; positivity)
      rw [ih _ i hlt]
      simp only [hi, if_true]
      unfold typeCountIdx
      simp only [List.map_cons, List.sum_cons]
      have hcond : bd.descriptorType.index = bd.descriptorType.index := rfl
      simp only [hcond, if_true]
      rw [Nat.mod_add_mod, Nat.add_assoc]
    · have hlt : ((fun j => if j = bd.descriptorType.index
          then (s j + bd.count) % u32Size else s j) i) < u32Size := by
        simp only [hi, if_false]
        exact hs
      rw [ih _ i hlt]
      simp only [hi, if_false]
      unfold typeCountIdx
      simp only [List.map_cons, List.sum_cons]
      have h2 : bd.descriptorType.index ≠ i := fun he => hi he.symm
      simp [h2]

theorem foldl_if_append {α β : Type} (p : α → Prop) [DecidablePred p] (f : α → β) :
    ∀ (l : List α) (acc : List β),
    l.foldl (fun acc i => if p i then acc ++ [f i] else acc) acc =
      acc ++ l.filterMap (fun i => if p i then some (f i) else none) := by
  intro l
  induction l with
  | nil => intro acc; simp
  | cons x xs ih =>
    intro acc
    by_cases h : p x
    · simp only [List.foldl_cons, List.filterMap_cons, h, if_true]
      rw [ih]
      simp
    · simp only [List.foldl_cons, List.filterMap_cons, h, if_false]
      rw [ih]

theorem length_filterMap_if {α β : Type} (p : α → Prop) [DecidablePred p]
    (f : α → β) (l : List α) :
    (l.filterMap (fun i => if p i then some (f i) else none)).length =
      (l.filter (fun i => decide (p i))).length := by
  induction l with
  | nil => rfl
  | cons x xs ih =>
    by_cases h : p x <;>
      simp [List.filterMap_cons, List.filter_cons, h, ih]

/-- The pool-size table built from a binding list, described extensionally:
one entry per non-zero per-type total, in canonical index order. -/
theorem build_from_bindings_eq (bindings : List DescriptorSetLayoutBinding)
    (hlt : ∀ t : DescriptorType, typeCount bindings t < u32Size) :
    ((DescriptorSizesBuilder.from_bindings bindings).build).sizes =
      (List.finRange 12).filterMap (fun i =>
        if typeCountIdx bindings i > 0 then
          some ⟨descriptor_type_from_index i, typeCountIdx bindings i⟩
        else none) := by
  have hsz : ∀ i : Fin 12,
      (DescriptorSizesBuilder.from_bindings bindings).sizes i =
        typeCountIdx bindings i := by
    intro i
    have h0 : (0 : Nat) < u32Size := by norm_num [u32Size]
    have hfb := from_bindings_sizes bindings (fun _ => 0) i h0
    unfold DescriptorSizesBuilder.from_bindings DescriptorSizesBuilder.zero
    rw [hfb]
    simp only [Nat.zero_add]
    have hb : typeCountIdx bindings i < u32Size := by
      have h1 := hlt (typeOfIndex i)
      rw [typeCount_eq_idx, index_typeOfIndex] at h1
      exact h1
    exact Nat.mod_eq_of_lt hb
  unfold DescriptorSizesBuilder.build
  dsimp only
  rw [foldl_if_append (fun i => (DescriptorSizesBuilder.from_bindings bindings).sizes i > 0)
    (fun i => (⟨descriptor_type_from_index i,
      (DescriptorSizesBuilder.from_bindings bindings).sizes i⟩ : PoolSize))]
  simp only [List.nil_append]
  apply List.filterMap_congr
  intro i _
  rw [hsz i]

/-- C10: `DescriptorSizesBuilder::from_bindings` followed by `build` yields
a pool-size table whose populated entries are exactly the descriptor types
whose per-type summed count over the bindings is non-zero, each carrying
that summed count; zero-count types are omitted; `count` equals the number
of populated entries, which equals the number of types with a non-zero
total.  In particular, bindings `[{UniformBuffer, 2}, {StorageBuffer, 1}]`
yield exactly `[UNIFORM_BUFFER = 2, STORAGE_BUFFER = 1]`. -/
theorem descriptorSizes_from_bindings_spec :
    (∀ bindings : List DescriptorSetLayoutBinding,
      (∀ t : DescriptorType, typeCount bindings t < u32Size) →
      (∀ t : DescriptorType, typeCount bindings t ≠ 0 →
        (⟨descriptor_type_from_index t.index, typeCount bindings t⟩ : PoolSize) ∈
          ((DescriptorSizesBuilder.from_bindings bindings).build).sizes) ∧
      (∀ t : DescriptorType, typeCount bindings t = 0 →
        ∀ ps ∈ ((DescriptorSizesBuilder.from_bindings bindings).build).sizes,
          ps.typ ≠ descriptor_type_from_index t.index) ∧
      (∀ ps ∈ ((DescriptorSizesBuilder.from_bindings bindings).build).sizes,
        ∃ t : DescriptorType, ps.typ = descriptor_type_from_index t.index ∧
          ps.descriptorCount = typeCount bindings t ∧ typeCount bindings t ≠ 0) ∧
      ((DescriptorSizesBuilder.from_bindings bindings).build).count =
        ((DescriptorSizesBuilder.from_bindings bindings).build).sizes.length ∧
      ((DescriptorSizesBuilder.from_bindings bindings).build).sizes.length =
        ((List.finRange 12).filter
          (fun i => decide (typeCountIdx bindings i > 0))).length) ∧
    (DescriptorSizesBuilder.from_bindings
        [⟨0, .uniformBuffer, 2, 0, 0⟩, ⟨1, .storageBuffer, 1, 0, 0⟩]).build =
      ⟨[⟨.uniformBuffer, 2⟩, ⟨.storageBuffer, 1⟩], 2⟩ := by
  constructor
  · intro bindings hlt
    have heq := build_from_bindings_eq bindings hlt
    refine ⟨?_, ?_, ?_, rfl, ?_⟩
    · intro t ht
      rw [heq]
      refine List.mem_filterMap.mpr ⟨t.index, List.mem_finRange _, ?_⟩
      rw [typeCount_eq_idx] at ht ⊢
      simp [Nat.pos_of_ne_zero ht]
    · intro t ht ps hps
      rw [heq] at hps
      obtain ⟨i, -, hsome⟩ := List.mem_filterMap.mp hps
      by_cases hpos : typeCountIdx bindings i > 0
      · simp only [hpos, if_true, Option.some.injEq] at hsome
        intro habs
        rw [← hsome] at habs
        have hii : i = t.index := from_index_injective _ _ habs
        rw [typeCount_eq_idx] at ht
        rw [hii] at hpos
        omega
      · simp [hpos] at hsome
    · intro ps hps
      rw [heq] at hps
      obtain ⟨i, -, hsome⟩ := List.mem_filterMap.mp hps
      by_cases hpos : typeCountIdx bindings i > 0
      · simp only [hpos, if_true, Option.some.injEq] at hsome
        refine ⟨typeOfIndex i, ?_, ?_, ?_⟩
        · rw [← hsome, index_typeOfIndex]
        · rw [← hsome, typeCount_eq_idx, index_typeOfIndex]
        · rw [typeCount_eq_idx, index_typeOfIndex]
          omega
      · simp [hpos] at hsome
    · rw [heq]
      exact length_filterMap_if _ _ _
  · decide

theorem buildTlas_precondition_amended_witness :
    tlasBuildPrecondition builtTlasBuilder.tlas true = true ∧
    isOkRun (buildTlas oracleW builtTlasBuilder [] 0 true DevState.init) = false :=
  (buildTlas_precondition_amended oracleW builtTlasBuilder [] 0 true
    DevState.init).2 rfl

theorem create_buffer_no_validation_witness :
    ∃ t, (stateOf (Device.create_buffer oracleW invalidInfo hostDeviceAddressMem
      DevState.init)).trace =
      DevState.init.trace ++ DevCall.createBuffer (DevState.init.nextHandle + 1)
        invalidInfo.size invalidInfo.usageFlags :: t :=
  create_buffer_no_validation oracleW invalidInfo hostDeviceAddressMem DevState.init

def bindingsW : List DescriptorSetLayoutBinding :=
  [⟨0, .uniformBuffer, 2, 0, 0⟩, ⟨1, .storageBuffer, 1, 0, 0⟩]

theorem descriptorSizes_from_bindings_spec_witness :
    (∀ t : DescriptorType, typeCount bindingsW t < u32Size) ∧
    (⟨descriptor_type_from_index DescriptorType.uniformBuffer.index,
       typeCount bindingsW .uniformBuffer⟩ : PoolSize) ∈
      ((DescriptorSizesBuilder.from_bindings bindingsW).build).sizes :=
  ⟨by decide,
    (descriptorSizes_from_bindings_spec.1 bindingsW (by decide)).1
      .uniformBuffer (by decide)⟩

end Rdx
